import Mathlib

/-!
Verification of the `shared_ebay` OAuth/listing client.

The Python modules `src/shared_ebay/client.py`, `auth.py` and `config.py` are
shallowly embedded below.  JSON values carry exact rationals in place of IEEE
floats (the arithmetic in the source is plain `+`/`*`, so every stated price
identity is exact in this model); Python exceptions that abort a computation
are modelled with `Option`, and HTTP traffic is modelled as a trace of
scripted outcomes consumed one per request.
-/

namespace EbayHelpers

/-! ## Character/string helpers shared by the URL and text scanners -/

/-- Test whether `pre` is a prefix of `l` (character-wise). -/
def leadsWith : List Char → List Char → Bool
  | [], _ => true
  | _ :: _, [] => false
  | c :: cs, h :: hs => c == h && leadsWith cs hs

/-- Test whether `needle` occurs as a contiguous substring of `hay`
(Python's `needle in hay` on strings). -/
def hasSub (needle : List Char) : List Char → Bool
  | [] => leadsWith needle []
  | c :: t => leadsWith needle (c :: t) || hasSub needle t

/-- Lower-case a string into a character list (Python `str.lower`, ASCII). -/
def lowerChars (s : String) : List Char := s.toList.map Char.toLower

/-! ## JSON model -/

/-- JSON-like values as produced by `response.json()`; numbers are rationals. -/
inductive Json where
  | null
  | bool (b : Bool)
  | num (q : ℚ)
  | str (s : String)
  | arr (elems : List Json)
  | obj (fields : List (String × Json))

/-- Dictionary lookup on object fields (parsed JSON objects have unique keys). -/
def lookupKey : List (String × Json) → String → Option Json
  | [], _ => none
  | (k', v) :: rest, k => if k' == k then some v else lookupKey rest k

/-- Python `d.get(k, default)` on an object's fields. -/
def getD (fields : List (String × Json)) (k : String) (d : Json) : Json :=
  (lookupKey fields k).getD d

/-- Python `==` between a JSON value and a string literal. -/
def isStrEq (j : Json) (s : String) : Bool :=
  match j with
  | .str t => t == s
  | _ => false

/-- Python `==` between a JSON value and an integer literal
(`bool` compares equal to `0`/`1` in Python). -/
def isNumEq (j : Json) (q : ℚ) : Bool :=
  match j with
  | .num r => r == q
  | .bool b => (if b then (1 : ℚ) else 0) == q
  | _ => false

/-- Python truthiness of a JSON value. -/
def pyTruthy : Json → Bool
  | .null => false
  | .bool b => b
  | .num q => q != 0
  | .str s => !s.isEmpty
  | .arr l => !l.isEmpty
  | .obj l => !l.isEmpty

/-- Decimal digits to a natural number. -/
def digitsToNat (l : List Char) : Nat :=
  l.foldl (fun acc c => acc * 10 + (c.toNat - '0'.toNat)) 0

/-- Parse a decimal float literal `[+-]?(digits[.digits*]? | .digits+)`
(the subset of Python `float(str)` the source can feed it; exponents and
special values are outside every code path used here). -/
def parseFloatChars (l : List Char) : Option ℚ :=
  let (neg, l1) : Bool × List Char :=
    match l with
    | '-' :: t => (true, t)
    | '+' :: t => (false, t)
    | t => (false, t)
  let intPart := l1.takeWhile Char.isDigit
  let rest := l1.dropWhile Char.isDigit
  let signed : ℚ → Option ℚ := fun q => some (if neg then -q else q)
  match rest with
  | [] => if intPart.isEmpty then none else signed (digitsToNat intPart)
  | '.' :: fr =>
      let frac := fr.takeWhile Char.isDigit
      let rest2 := fr.dropWhile Char.isDigit
      if rest2.isEmpty && !(intPart.isEmpty && frac.isEmpty) then
        signed ((digitsToNat intPart : ℚ) + (digitsToNat frac : ℚ) / (10 ^ frac.length))
      else none
  | _ => none

/-- Python `float(x)` on a JSON value; `none` models a raised exception. -/
def pyFloat : Json → Option ℚ
  | .num q => some q
  | .bool b => some (if b then 1 else 0)
  | .str s => parseFloatChars s.toList
  | _ => none

/-- Model of Python `str()` restricted to the shapes the claims exercise:
strings render as themselves, scalars get fixed renderings, container
rendering is abbreviated (no verified claim depends on it). -/
def pyStr : Json → String
  | .str s => s
  | .num q => toString q
  | .bool b => if b then "True" else "False"
  | .null => "None"
  | .arr _ => "<list>"
  | .obj _ => "<dict>"

/-! ## Shipping-cost fallback extraction
(`eBayClient._extract_shipping_from_additional_fields`, client.py 287-357) -/

/-- Whitespace class of the regex `\s` (ASCII). -/
def isSpaceChar (c : Char) : Bool :=
  c == ' ' || c == '\t' || c == '\n' || c == '\r' || c == Char.ofNat 11 || c == Char.ofNat 12

/-- Greedy match of `(\d+\.?\d*)`, returning the captured characters and the
remainder of the input. -/
def numTok (l : List Char) : Option (List Char × List Char) :=
  let d1 := l.takeWhile Char.isDigit
  if d1.isEmpty then none
  else
    match l.dropWhile Char.isDigit with
    | '.' :: r2 => some (d1 ++ '.' :: r2.takeWhile Char.isDigit, r2.dropWhile Char.isDigit)
    | r1 => some (d1, r1)

/-- Match `\$(\d+\.?\d*)\s*(?:shipping|ship)` anchored at the start of `l`. -/
def patDollarShip (l : List Char) : Option (List Char) :=
  match l with
  | '$' :: r =>
      match numTok r with
      | some (g, r2) =>
          if leadsWith "ship".toList (r2.dropWhile isSpaceChar) then some g else none
      | none => none
  | _ => none

/-- Match `shipping[:\s]*\$(\d+\.?\d*)` anchored at the start of `l`. -/
def patShippingColon (l : List Char) : Option (List Char) :=
  if leadsWith "shipping".toList l then
    match (l.drop 8).dropWhile (fun c => c == ':' || isSpaceChar c) with
    | '$' :: r => (numTok r).map Prod.fst
    | _ => none
  else none

/-- Match `us\s*\$(\d+\.?\d*)\s*(?:shipping|ship)` anchored at the start of `l`. -/
def patUsDollarShip (l : List Char) : Option (List Char) :=
  if leadsWith "us".toList l then
    match (l.drop 2).dropWhile isSpaceChar with
    | '$' :: r =>
        match numTok r with
        | some (g, r2) =>
            if leadsWith "ship".toList (r2.dropWhile isSpaceChar) then some g else none
        | none => none
    | _ => none
  else none

/-- Match `ground\s*advantage[:\s]*\$(\d+\.?\d*)` anchored at the start of `l`. -/
def patGroundAdvantage (l : List Char) : Option (List Char) :=
  if leadsWith "ground".toList l then
    let r := (l.drop 6).dropWhile isSpaceChar
    if leadsWith "advantage".toList r then
      match (r.drop 9).dropWhile (fun c => c == ':' || isSpaceChar c) with
      | '$' :: r2 => (numTok r2).map Prod.fst
      | _ => none
    else none
  else none

/-- Leftmost match of an anchored matcher over the text (`re.search`). -/
def searchPat (m : List Char → Option (List Char)) : List Char → Option (List Char)
  | [] => m []
  | c :: t =>
      match m (c :: t) with
      | some g => some g
      | none => searchPat m t

/-- Run one anchored pattern via leftmost search and parse its group. -/
def patValue (m : List Char → Option (List Char)) (text : List Char) : Option ℚ :=
  match searchPat m text with
  | some g => parseFloatChars g
  | none => none

/-- Try the four shipping-cost regexes in source order on one text field;
a match whose group fails to parse falls through to the next pattern
(client.py 339-353). -/
def tryPatterns (text : List Char) : Option ℚ :=
  match patValue patDollarShip text with
  | some q => some q
  | none =>
      match patValue patShippingColon text with
      | some q => some q
      | none =>
          match patValue patUsDollarShip text with
          | some q => some q
          | none => patValue patGroundAdvantage text

/-- Cost-like keys probed inside a shipping-related dict field. -/
def costKeys : List String := ["cost", "value", "amount", "price"]

/-- Inner loop of the dict probe: first cost-like key that yields a float
(client.py 317-328); `none` means the loop finished without `break`. -/
def innerCost (fd : List (String × Json)) : List String → Option ℚ
  | [] => none
  | k :: ks =>
      match lookupKey fd k with
      | none => innerCost fd ks
      | some (.num q) => some q
      | some (.bool b) => some (if b then 1 else 0)
      | some (.obj inner) =>
          match lookupKey inner "value" with
          | some w =>
              match pyFloat w with
              | some q => some q
              | none => innerCost fd ks
          | none => innerCost fd ks
      | some _ => innerCost fd ks

/-- Alternate shipping fields probed in order (client.py 304-310). -/
def potentialFields : List String := ["shippingCost", "shipping", "delivery", "shippingInfo", "shippingDetails"]

/-- Outer loop of the dict probe, threading the running `shipping_cost`
(client.py 312-330): a probed value stops the loop only when positive. -/
def dictPass (item : List (String × Json)) : List String → ℚ → ℚ
  | [], c => c
  | f :: fs, c =>
      match lookupKey item f with
      | some (.obj fd) =>
          match innerCost fd costKeys with
          | some q => if q > 0 then q else dictPass item fs q
          | none => dictPass item fs c
      | _ => dictPass item fs c

/-- Text fields scanned by the regex pass (client.py 334). -/
def textFields : List String := ["title", "description", "subtitle"]

/-- Regex pass over the text fields, threading the running cost
(client.py 333-355): a matched value stops the loop only when positive. -/
def textPass (item : List (String × Json)) : List String → ℚ → ℚ
  | [], c => c
  | f :: fs, c =>
      match lookupKey item f with
      | none => textPass item fs c
      | some v =>
          match tryPatterns ((pyStr v).toList.map Char.toLower) with
          | some q => if q > 0 then q else textPass item fs q
          | none => textPass item fs c

/-- Model of `_extract_shipping_from_additional_fields` (client.py 287-357):
dict probe first; the regex pass runs only when the probed cost is exactly 0. -/
def extract_shipping_from_additional_fields (item : List (String × Json)) : ℚ :=
  let c := dictPass item potentialFields 0
  if c == 0 then textPass item textFields 0 else c

/-! ## Listing normalization (`eBayClient.fetch_listing_data`, client.py 359-597) -/

/-- The canonical output record (`models.ListingData`).  Fields the source
stores without conversion keep their raw JSON value. -/
structure ListingRecord where
  url : String
  title : Json
  price : ℚ
  currency : Json
  description : Json
  condition : Json
  brand : Option Json
  seller_name : Json
  seller_rating : Option ℚ
  images : List Json
  item_id : String
  category_id : String
  listing_type : Json
  item_price : ℚ
  shipping_cost : ℚ
  shipping_type : Json
  sales_tax : ℚ
  import_charges : ℚ
  ship_from_country : Json
  returns_accepted : Json
  return_period : Option String
  return_policy_text : String
  accepts_offers : Bool

/-- Shipping from the first `shippingOptions` entry (client.py 408-421);
`none` models a raised conversion/attribute error. -/
def shipping_of_options (first : Json) : Option (Json × ℚ) := do
  let .obj ff := first | none
  let cost ←
    match lookupKey ff "shippingCost" with
    | some info => do
        let .obj infof := info | none
        pyFloat (getD infof "value" (.num 0))
    | none => pure 0
  let ty := getD ff "shippingCostType" (.str "Unknown")
  if isStrEq ty "FREE" || cost == 0 then pure (Json.str "FREE", 0)
  else pure (ty, cost)

/-- Free-shipping text indicator (client.py 427-428): the lowered
`title description` concatenation mentions free shipping or delivery. -/
def free_text_indicator (f : List (String × Json)) : Bool :=
  let itemText :=
    (pyStr (getD f "title" (.str "")) ++ " " ++ pyStr (getD f "description" (.str ""))).toList.map Char.toLower
  hasSub "free shipping".toList itemText || hasSub "free delivery".toList itemText

/-- Shipping fallback when no usable `shippingOptions` entry exists
(client.py 422-442): free-shipping text indicators, then the field probe. -/
def shipping_fallback (f : List (String × Json)) : Json × ℚ :=
  if free_text_indicator f then
    (Json.str "FREE", 0)
  else
    let c := extract_shipping_from_additional_fields f
    if c > 0 then (Json.str "CALCULATED", c)
    else (Json.str "Unknown", 0)

/-- Shipping extraction entry point (client.py 398-442).  The branch taken
follows Python's `'shippingOptions' in item_data and len(...) > 0` test,
including the exceptions `len`/indexing raise on non-list shapes. -/
def shipping_extract (f : List (String × Json)) : Option (Json × ℚ) :=
  match lookupKey f "shippingOptions" with
  | some (.arr (first :: _)) => shipping_of_options first
  | some (.arr []) => some (shipping_fallback f)
  | some (.str s) => if s.isEmpty then some (shipping_fallback f) else none
  | some (.obj []) => some (shipping_fallback f)
  | some (.obj _) => none
  | some _ => none
  | none => some (shipping_fallback f)

/-- Brand scan over `localizedAspects` (client.py 482-486); the outer
`Option` models exceptions raised on malformed aspect entries, the inner
one is the running `brand` value. -/
def scanBrand (b0 : Option Json) : List Json → Option (Option Json)
  | [] => some b0
  | a :: rest =>
      match a with
      | .obj af =>
          match getD af "name" (.str "") with
          | .str n =>
              if (n.toList.map Char.toLower) = "brand".toList then
                some (some (getD af "value" (.str "")))
              else scanBrand b0 rest
          | _ => none
      | _ => none

/-- Item price and currency (client.py 391-396). -/
def price_extract (f : List (String × Json)) : Option (ℚ × Json) := do
  let priceInfo := getD f "price" (.obj [])
  if pyTruthy priceInfo then do
    let .obj pf := priceInfo | none
    let ip ← pyFloat (getD pf "value" (.num 0))
    pure (ip, getD pf "currency" (.str "USD"))
  else pure (0, Json.str "USD")

/-- Ship-from country (client.py 445-449). -/
def ship_from_extract (f : List (String × Json)) : Json :=
  match lookupKey f "itemLocation" with
  | some (.obj lf) => getD lf "country" (.str "US")
  | _ => Json.str "US"

/-- Explicit import duty (client.py 452-456); 0 when absent or malformed. -/
def explicit_import_extract (f : List (String × Json)) : Option ℚ :=
  match lookupKey f "importDuty" with
  | some (.obj df) =>
      match lookupKey df "amount" with
      | some amt => do
          let .obj af := amt | none
          pyFloat (getD af "value" (.num 0))
      | none => pure 0
  | some _ => pure 0
  | none => pure 0

/-- Import charges (client.py 451-460): explicit duty, but a zero value with
a non-US ship-from country is replaced by the 10% estimate. -/
def import_charges_of (explicit ip sc : ℚ) (country : Json) : ℚ :=
  if explicit == 0 && !(isStrEq country "US") then (ip + sc) * (1 / 10)
  else explicit

/-- Image list (client.py 494-506): primary image then additional images,
truncated to 24. -/
def images_extract (f : List (String × Json)) : Option (List Json) := do
  let primary : List Json :=
    match lookupKey f "image" with
    | some (.obj imf) =>
        match lookupKey imf "imageUrl" with
        | some u => [u]
        | none => []
    | _ => []
  let additional : List Json ←
    match lookupKey f "additionalImages" with
    | none => pure []
    | some (.arr l) =>
        pure (l.filterMap (fun im =>
          match im with
          | .obj imf => lookupKey imf "imageUrl"
          | _ => none))
    | some (.str _) => pure []
    | some (.obj _) => pure []
    | some _ => none
  pure ((primary ++ additional).take 24)

/-- Seller name and rating (client.py 509-515). -/
def seller_extract (f : List (String × Json)) : Option (Json × Option ℚ) := do
  match lookupKey f "seller" with
  | none => pure (Json.str "Unknown", none)
  | some s => do
      let .obj sf := s | none
      let name := getD sf "username" (.str "Unknown")
      match lookupKey sf "feedbackScore" with
      | none => pure (name, none)
      | some fs => do
          let r ← pyFloat fs
          pure (name, some r)

/-- Listing type and best-offer flag from `buyingOptions` (client.py 525-527). -/
def buying_extract (f : List (String × Json)) : Option (Json × Bool) :=
  match getD f "buyingOptions" (.arr [Json.str "FIXED_PRICE"]) with
  | .arr [] => some (Json.str "FIXED_PRICE", false)
  | .arr (b :: rest) => some (b, (b :: rest).any (fun e => isStrEq e "BEST_OFFER"))
  | .str s =>
      if s.isEmpty then some (Json.str "FIXED_PRICE", hasSub "BEST_OFFER".toList s.toList)
      else some (Json.str (String.mk [s.toList.headD ' ']), hasSub "BEST_OFFER".toList s.toList)
  | .obj [] => some (Json.str "FIXED_PRICE", false)
  | _ => none

/-- Return policy (client.py 530-548). -/
def returns_extract (f : List (String × Json)) : Option (Json × Option String × String) := do
  match lookupKey f "returnTerms" with
  | none => pure (Json.bool false, none, "Unknown")
  | some rt => do
      let .obj rtf := rt | none
      let ra := getD rtf "returnsAccepted" (.bool false)
      if pyTruthy ra then do
        let rp : Option String ←
          match lookupKey rtf "returnPeriod" with
          | none => pure none
          | some pi => do
              let .obj pif := pi | none
              let v := getD pif "value" (.str "")
              let u := getD pif "unit" (.str "")
              if pyTruthy v && pyTruthy u then pure (some (pyStr v ++ " " ++ pyStr u))
              else pure none
        match rp with
        | some p => pure (ra, some p, "Returns accepted (" ++ p ++ ")")
        | none => pure (ra, none, "Returns accepted")
      else pure (ra, none, "No returns")

/-- Condition (client.py 472-474). -/
def condition_extract (f : List (String × Json)) : Json :=
  match getD f "condition" (.str "Unknown") with
  | .obj cf => getD cf "conditionDisplayName" (.str "Unknown")
  | v => v

/-- Brand (client.py 477-486). -/
def brand_extract (f : List (String × Json)) : Option (Option Json) :=
  let b0 := lookupKey f "brand"
  if (b0.map pyTruthy).getD false then some b0
  else
    match lookupKey f "localizedAspects" with
    | none => some b0
    | some (.arr aspects) => scanBrand b0 aspects
    | some (.str s) => if s.isEmpty then some b0 else none
    | some (.obj l) => if l.isEmpty then some b0 else none
    | some _ => none

/-- Description with `shortDescription` fallback (client.py 489-491). -/
def description_extract (f : List (String × Json)) : Json :=
  let d0 := getD f "description" (.str "")
  if pyTruthy d0 then d0
  else
    match lookupKey f "shortDescription" with
    | some sd => sd
    | none => d0

/-- Category id, stringified (client.py 518-522, 576). -/
def category_extract (f : List (String × Json)) : String :=
  match lookupKey f "categoryPath" with
  | some v => pyStr v
  | none =>
      match lookupKey f "categoryId" with
      | some v => pyStr v
      | none => ""

/-- The normalization section of `fetch_listing_data` (client.py 386-588):
turns a raw item payload into a `ListingRecord`.  `none` models the
`except Exception` path that reports failure (client.py 593-597). -/
def parse_listing (ebay_url item_id : String) (item : Json) (rate : ℚ) : Option ListingRecord := do
  let .obj f := item | none
  let title := getD f "title" (.str "")
  let (item_price, currency) ← price_extract f
  let (shipping_type, shipping_cost) ← shipping_extract f
  let ship_from_country := ship_from_extract f
  let explicit ← explicit_import_extract f
  let import_charges := import_charges_of explicit item_price shipping_cost ship_from_country
  let subtotal := item_price + shipping_cost + import_charges
  let sales_tax := subtotal * rate
  let price := subtotal + sales_tax
  let condition := condition_extract f
  let brand ← brand_extract f
  let description := description_extract f
  let images ← images_extract f
  let (seller_name, seller_rating) ← seller_extract f
  let category_id := category_extract f
  let (listing_type, accepts_offers) ← buying_extract f
  let (returns_accepted, return_period, return_policy_text) ← returns_extract f
  pure {
    url := ebay_url
    title := title
    price := price
    currency := currency
    description := description
    condition := condition
    brand := brand
    seller_name := seller_name
    seller_rating := seller_rating
    images := images
    item_id := item_id
    category_id := category_id
    listing_type := listing_type
    item_price := item_price
    shipping_cost := shipping_cost
    shipping_type := shipping_type
    sales_tax := sales_tax
    import_charges := import_charges
    ship_from_country := ship_from_country
    returns_accepted := returns_accepted
    return_period := return_period
    return_policy_text := return_policy_text
    accepts_offers := accepts_offers }

/-! ## URL parsing (`eBayClient.extract_item_id_from_url`, client.py 117-133)

The source calls `urllib.parse.urlparse`; the model below follows CPython's
`urlsplit` for the components the source reads (netloc and path): optional
`scheme:` prefix, netloc after `//` up to the first of `/?#`, fragment and
query stripped from the path.  `urlsplit` is total on these inputs, so the
`except` branch of the source never fires in the model. -/

/-- Characters permitted in a URL scheme. -/
def isSchemeChar (c : Char) : Bool :=
  c.isAlphanum || c == '+' || c == '-' || c == '.'

/-- Drop a leading `scheme:` when the prefix before the first `:` is a valid
scheme (nonempty, alphabetic initial, scheme characters). -/
def afterScheme (l : List Char) : List Char :=
  match l.findIdx? (fun c => c == ':') with
  | none => l
  | some i =>
      if 0 < i && (l.headD ' ').isAlpha && (l.take i).all isSchemeChar then l.drop (i + 1)
      else l

/-- Characters terminating the netloc. -/
def isNetlocDelim (c : Char) : Bool :=
  c == '/' || c == '?' || c == '#'

/-- Split off the netloc after a leading `//` (CPython `_splitnetloc`). -/
def splitNetloc (l : List Char) : List Char × List Char :=
  match l with
  | a :: b :: r =>
      if a = '/' ∧ b = '/' then
        (r.takeWhile (fun c => !isNetlocDelim c), r.dropWhile (fun c => !isNetlocDelim c))
      else ([], l)
  | _ => ([], l)

/-- Netloc and path of a URL, as `urllib.parse.urlparse` reports them. -/
def urlparse (url : String) : List Char × List Char :=
  let (netloc, rest) := splitNetloc (afterScheme url.toList)
  (netloc, (rest.takeWhile (fun c => c != '#')).takeWhile (fun c => c != '?'))

/-- Python `s.split(c)` on characters. -/
def splitChar (c : Char) : List Char → List (List Char)
  | [] => [[]]
  | x :: xs =>
      match splitChar c xs with
      | [] => [[]]
      | y :: ys => if x = c then [] :: y :: ys else (x :: y) :: ys

/-- Inverse of `splitChar`: rejoin segments with the separator. -/
def joinChar (c : Char) : List (List Char) → List Char
  | [] => []
  | [x] => x
  | x :: y :: ys => x ++ c :: joinChar c (y :: ys)

/-- Python `str.isdigit` (ASCII digits). -/
def pyIsdigit (l : List Char) : Bool :=
  !l.isEmpty && l.all Char.isDigit

/-- Inner loop of the id scan (client.py 127-130): first path segment after
the `itm` marker that is purely numeric once a trailing `?...` is stripped. -/
def innerScan : List (List Char) → Option (List Char)
  | [] => none
  | p :: ps =>
      let pid := p.takeWhile (fun c => c != '?')
      if pyIsdigit pid then some pid else innerScan ps

/-- Outer loop of the id scan (client.py 125-130): find an `itm` segment with
at least one successor, scan after it, or keep looking. -/
def outerScan : List (List Char) → Option (List Char)
  | [] => none
  | p :: ps =>
      if p = "itm".toList ∧ ps ≠ [] then
        match innerScan ps with
        | some x => some x
        | none => outerScan ps
      else outerScan ps

/-- Model of `extract_item_id_from_url` (client.py 117-133). -/
def extract_item_id_from_url (url : String) : Option String :=
  let (netloc, path) := urlparse url
  if !hasSub "ebay.com".toList netloc then none
  else if hasSub "/itm/".toList url.toList then
    (outerScan (splitChar '/' path)).map (fun l => String.mk l)
  else none

/-- Segments strictly after the first `itm` segment, if any. -/
def afterItm : List (List Char) → Option (List (List Char))
  | [] => none
  | p :: ps => if p = "itm".toList then some ps else afterItm ps

/-- Specification-side extractor, written from the claim's words: when the
host contains the vendor domain and the path has an `itm` segment followed
by a purely-numeric segment (trailing `?...` stripped), return that first
numeric segment; otherwise return nothing. -/
def extract_item_id_spec (url : String) : Option String :=
  let (netloc, path) := urlparse url
  if hasSub "ebay.com".toList netloc then
    ((afterItm (splitChar '/' path)).bind innerScan).map (fun l => String.mk l)
  else none

/-! ## Item fetching with retry (`eBayClient.get_item_details`, client.py 135-285)

HTTP traffic is a scripted trace; each request consumes one outcome.  An
unscripted request behaves as a connection failure. -/

/-- Scripted outcome of one HTTP request.  A `resp` body of `none` models a
response whose JSON fails to parse; `otherError` models an unexpected
exception raised while performing the request. -/
inductive Outcome where
  | resp (status : Nat) (body : Option Json)
  | timeout
  | connError
  | otherError

/-- Transport failure kinds (`requests.exceptions.Timeout`/`ConnectionError`). -/
inductive TransportErr where
  | timedOut
  | connFailed

/-- Message family of an `APIError` (client.py 204, 207, 216, 225, 234). -/
inductive ErrKind where
  | badRequest
  | client (status : Nat)
  | server (status : Nat)
  | network (e : TransportErr)
  | unexpected

/-- The typed errors of client.py 63-80, as raised by `get_item_details`. -/
inductive FetchErr where
  | rateLimited
  | itemNotFound
  | unauthorized
  | apiError (k : ErrKind)

/-- Result of one `get_item_details` call: a parsed payload, Python `None`,
a raised typed error, or model fuel exhaustion (never reached in any theorem). -/
inductive FetchResult where
  | payload (p : Json)
  | noneResult
  | err (e : FetchErr)
  | fuelOut

/-- Classification of a 400 body (client.py 190-204). -/
inductive P400 where
  | group
  | generic
  | unexpected

/-- Scan the `errors` array for vendor error id 11006; a non-dict entry makes
`error.get` raise `AttributeError`, which only `except Exception` catches. -/
def scan400 : List Json → P400
  | [] => .generic
  | e :: es =>
      match e with
      | .obj ef => if isNumEq (getD ef "errorId" .null) 11006 then .group else scan400 es
      | _ => .unexpected

/-- Iterate Python-style over the `errors` value. -/
def iter400 : Json → P400
  | .arr l => scan400 l
  | .str s => if s.isEmpty then .generic else .unexpected
  | .obj l => if l.isEmpty then .generic else .unexpected
  | _ => .unexpected

/-- Classify a 400 response body (client.py 190-204): unparsable JSON or a
missing `errors` key is a generic 400. -/
def parse400 : Option Json → P400
  | none => .generic
  | some (.obj f) =>
      match lookupKey f "errors" with
      | none => .generic
      | some v => iter400 v
  | some _ => .unexpected

/-- Result of `_get_item_group_details`: a resolved payload or `None`. -/
inductive GroupResult where
  | found (p : Json)
  | noData
  | fuelOut

/-- Consume the next scripted outcome; an empty script is a connection failure. -/
def nextOutcome : List Outcome → Outcome × List Outcome
  | [] => (Outcome.connError, [])
  | o :: t => (o, t)

/-- Swallow exceptions of a nested `get_item_details` call inside
`_get_item_group_details` (its `except Exception` returns `None`). -/
def maskGroup : FetchResult → GroupResult
  | .payload p => .found p
  | .noneResult => .noData
  | .err _ => .noData
  | .fuelOut => .fuelOut

/-- Resolve the first summary of a 200 item-group search body
(client.py 261-278); `recurse` performs the nested `get_item_details`. -/
def groupFromBody (recurse : List Outcome → FetchResult × List Nat × List Outcome)
    (body : Option Json) (rest : List Outcome) : GroupResult × List Nat × List Outcome :=
  match body with
  | none => (.noData, [], rest)
  | some (.obj df) =>
      match lookupKey df "itemSummaries" with
      | some (.arr (first :: _)) =>
          match first with
          | .obj ff =>
              match lookupKey ff "legacyItemId" with
              | some _ =>
                  let (r, s, t) := recurse rest
                  (maskGroup r, s, t)
              | none => (.found first, [], rest)
          | .str s => if hasSub "legacyItemId".toList s.toList then (.noData, [], rest) else (.found (.str s), [], rest)
          | .arr l => if l.any (fun e => isStrEq e "legacyItemId") then (.noData, [], rest) else (.found (.arr l), [], rest)
          | _ => (.noData, [], rest)
      | some (.arr []) => (.noData, [], rest)
      | some (.str s) =>
          if s.isEmpty then (.noData, [], rest)
          else
            match s.toList.head? with
            | some c => (.found (.str (String.mk [c])), [], rest)
            | none => (.noData, [], rest)
      | _ => (.noData, [], rest)
  | some _ => (.noData, [], rest)

mutual

/-- The retry loop of `get_item_details` (client.py 164-237), from a given
attempt index.  Returns the result, the backoff sleeps performed (seconds,
in order), and the unconsumed trace.  `fuel` only bounds the item-group
recursion depth. -/
def get_item_details_from (fuel maxRetries attempt : Nat) (trace : List Outcome) :
    FetchResult × List Nat × List Outcome :=
  match fuel with
  | 0 => (.fuelOut, [], trace)
  | fuel' + 1 =>
      if attempt < maxRetries then
        let (o, rest) := nextOutcome trace
        match o with
        | .timeout =>
            if attempt < maxRetries - 1 then
              let (r, s, t) := get_item_details_from fuel' maxRetries (attempt + 1) rest
              (r, 2 ^ attempt :: s, t)
            else (.err (.apiError (.network .timedOut)), [], rest)
        | .connError =>
            if attempt < maxRetries - 1 then
              let (r, s, t) := get_item_details_from fuel' maxRetries (attempt + 1) rest
              (r, 2 ^ attempt :: s, t)
            else (.err (.apiError (.network .connFailed)), [], rest)
        | .otherError => (.err (.apiError .unexpected), [], rest)
        | .resp status body =>
            if status == 200 then
              match body with
              | some p => (.payload p, [], rest)
              | none => (.err (.apiError .unexpected), [], rest)
            else if 400 ≤ status && status < 500 then
              if status == 401 then (.err .unauthorized, [], rest)
              else if status == 404 then (.err .itemNotFound, [], rest)
              else if status == 429 then
                if attempt < maxRetries - 1 then
                  let (r, s, t) := get_item_details_from fuel' maxRetries (attempt + 1) rest
                  (r, 2 ^ attempt * 2 :: s, t)
                else (.err .rateLimited, [], rest)
              else if status == 400 then
                match parse400 body with
                | .group =>
                    let (g, s, t) := get_item_group_details fuel' rest
                    (match g with
                     | .found p => (.payload p, s, t)
                     | .noData => (.noneResult, s, t)
                     | .fuelOut => (.fuelOut, s, t))
                | .generic => (.err (.apiError .badRequest), [], rest)
                | .unexpected => (.err (.apiError .unexpected), [], rest)
              else (.err (.apiError (.client status)), [], rest)
            else if 500 ≤ status then
              if attempt < maxRetries - 1 then
                let (r, s, t) := get_item_details_from fuel' maxRetries (attempt + 1) rest
                (r, 2 ^ attempt :: s, t)
              else (.err (.apiError (.server status)), [], rest)
            else
              get_item_details_from fuel' maxRetries (attempt + 1) rest
      else (.noneResult, [], trace)

/-- Model of `_get_item_group_details` (client.py 239-285): one search
request, then resolution of the first summary; every exception (including
typed errors raised by the nested `get_item_details`) yields `None`. -/
def get_item_group_details (fuel : Nat) (trace : List Outcome) :
    GroupResult × List Nat × List Outcome :=
  match fuel with
  | 0 => (.fuelOut, [], trace)
  | fuel' + 1 =>
      let (o, rest) := nextOutcome trace
      match o with
      | .resp status body =>
          if status == 200 then
            groupFromBody (get_item_details_from fuel' 3 0) body rest
          else (.noData, [], rest)
      | _ => (.noData, [], rest)

end

/-- Model of `_should_refresh_token` (client.py 91-95): `timedelta.seconds`
is the per-day remainder of the elapsed time, not its total. -/
def should_refresh_token (tokenRefreshedAt : Option Unit) (elapsed : Nat) : Bool :=
  match tokenRefreshedAt with
  | none => true
  | some _ => elapsed % 86400 > 5400

/-- Threshold and lifetime configured in `eBayClient.__init__` (client.py 87-88). -/
def token_refresh_threshold : Nat := 5400

/-- One `get_item_details` call (client.py 135-237). -/
structure FetchRun where
  didRefreshToken : Bool
  result : FetchResult
  sleeps : List Nat
  remaining : List Outcome

/-- Model of `get_item_details`: refresh the token when stale
(client.py 155-156), then run the retry loop. -/
def get_item_details (tokenRefreshedAt : Option Unit) (elapsed : Nat)
    (fuel maxRetries : Nat) (trace : List Outcome) : FetchRun :=
  let (r, s, t) := get_item_details_from fuel maxRetries 0 trace
  { didRefreshToken := should_refresh_token tokenRefreshedAt elapsed
    result := r
    sleeps := s
    remaining := t }

/-- Result of `fetch_listing_data`. -/
inductive ListingResult where
  | record (r : ListingRecord)
  | noneResult
  | err (e : FetchErr)
  | fuelOut

/-- Model of `fetch_listing_data` (client.py 359-597): resolve the item id
from the URL, fetch the payload over the trace, and normalize it. -/
def fetch_listing_data (tokenRefreshedAt : Option Unit) (elapsed : Nat)
    (fuel : Nat) (ebay_url : String) (trace : List Outcome) (rate : ℚ) : ListingResult :=
  match extract_item_id_from_url ebay_url with
  | none => .noneResult
  | some item_id =>
      let run := get_item_details tokenRefreshedAt elapsed fuel 3 trace
      match run.result with
      | .payload p =>
          if pyTruthy p then
            match parse_listing ebay_url item_id p rate with
            | some rec => .record rec
            | none => .noneResult
          else .noneResult
      | .noneResult => .noneResult
      | .err e => .err e
      | .fuelOut => .fuelOut

/-! ## Token management (`auth.TokenManager`, auth.py 33-178) -/

/-- Environment variable key with optional account suffix (`config._key`). -/
def envKey (base suffix : String) : String :=
  if suffix.isEmpty then base else base ++ "_" ++ suffix

/-- Key-value read against the credential store (`os.getenv`). -/
def getEnv : List (String × String) → String → Option String
  | [], _ => none
  | (k', v) :: rest, k => if k' == k then some v else getEnv rest k

/-- Key-value write against the credential store (`dotenv.set_key`). -/
def setKey (store : List (String × String)) (k v : String) : List (String × String) :=
  match store with
  | [] => [(k, v)]
  | (k', v') :: rest => if k' == k then (k, v) :: rest else (k', v') :: setKey rest k v

/-- Python truthiness of an optional string (missing or empty is falsy). -/
def truthyOpt : Option String → Bool
  | none => false
  | some s => !s.isEmpty

/-- Outcome of the token validity probe request. -/
inductive ProbeOutcome where
  | status (n : Nat)
  | netError

/-- Model of `test_token_validity` (auth.py 69-85): only a 401 is invalid;
any transport failure is treated as valid. -/
def test_token_validity (probe : ProbeOutcome) : Bool :=
  match probe with
  | .status n => !(n == 401)
  | .netError => true

/-- Model of `save_tokens` (auth.py 124-135): write each token whose key the
response body carries; `persistOk = false` models `set_key` raising.  Returns
the updated store and the boolean result. -/
def save_tokens (persistOk : Bool) (suffix : String) (store : List (String × String))
    (token_data : Json) : List (String × String) × Bool :=
  if !persistOk then (store, false)
  else
    match token_data with
    | .obj f =>
        let store1 :=
          match lookupKey f "access_token" with
          | some v => setKey store (envKey "EBAY_USER_TOKEN" suffix) (pyStr v)
          | none => store
        let store2 :=
          match lookupKey f "refresh_token" with
          | some v => setKey store1 (envKey "EBAY_REFRESH_TOKEN" suffix) (pyStr v)
          | none => store1
        (store2, true)
    | .str s =>
        if hasSub "access_token".toList s.toList || hasSub "refresh_token".toList s.toList then
          (store, false)
        else (store, true)
    | .arr l =>
        if l.any (fun e => isStrEq e "access_token") || l.any (fun e => isStrEq e "refresh_token") then
          (store, false)
        else (store, true)
    | _ => (store, false)

/-- Environment of one `ensure_valid_token` call: configuration, stored
credentials, and the scripted behaviour of the two vendor endpoints. -/
structure AuthEnv where
  appId : Option String
  clientSecret : Option String
  suffix : String
  store : List (String × String)
  probe : ProbeOutcome
  tokenEndpoint : Option Json
  persistOk : Bool

/-- Observable result of one `ensure_valid_token` call: the boolean outcome,
how many refresh requests reached the network, and the resulting store. -/
structure AuthRun where
  ok : Bool
  refreshNetworkCalls : Nat
  store : List (String × String)

/-- Stored access token for the account suffix (auth.py 59-62). -/
def get_current_token (env : AuthEnv) : Option String :=
  getEnv env.store (envKey "EBAY_USER_TOKEN" env.suffix)

/-- Stored refresh token for the account suffix (auth.py 64-67). -/
def get_refresh_token (env : AuthEnv) : Option String :=
  getEnv env.store (envKey "EBAY_REFRESH_TOKEN" env.suffix)

/-- Model of `refresh_access_token` (auth.py 87-122): missing app id or
secret fails without touching the network; otherwise one POST whose parsed
body (or failure) is scripted.  Returns the body and the network call count. -/
def refresh_access_token (env : AuthEnv) : Option Json × Nat :=
  if !truthyOpt env.appId || !truthyOpt env.clientSecret then (none, 0)
  else (env.tokenEndpoint, 1)

/-- Model of `ensure_valid_token` (auth.py 137-164). -/
def ensure_valid_token (env : AuthEnv) : AuthRun :=
  if !truthyOpt (get_current_token env) then
    { ok := false, refreshNetworkCalls := 0, store := env.store }
  else if test_token_validity env.probe then
    { ok := true, refreshNetworkCalls := 0, store := env.store }
  else if !truthyOpt (get_refresh_token env) then
    { ok := false, refreshNetworkCalls := 0, store := env.store }
  else
    let (td, n) := refresh_access_token env
    match td with
    | none => { ok := false, refreshNetworkCalls := n, store := env.store }
    | some data =>
        let (store', saved) := save_tokens env.persistOk env.suffix env.store data
        { ok := saved, refreshNetworkCalls := n, store := store' }

/-! ## Non-negativity of payload values (used for the price invariant) -/

mutual

/-- Every numeric value in the payload — including numeric strings, which
Python `float()` also accepts — is non-negative. -/
def nonnegVals : Json → Bool
  | .null => true
  | .bool _ => true
  | .num q => decide (0 ≤ q)
  | .str s =>
      match parseFloatChars s.toList with
      | some q => decide (0 ≤ q)
      | none => true
  | .arr l => nonnegList l
  | .obj l => nonnegFields l

/-- All array elements satisfy `nonnegVals`. -/
def nonnegList : List Json → Bool
  | [] => true
  | j :: t => nonnegVals j && nonnegList t

/-- All object values satisfy `nonnegVals`. -/
def nonnegFields : List (String × Json) → Bool
  | [] => true
  | (_, j) :: t => nonnegVals j && nonnegFields t

end

/-! ## Concrete payloads and environments used in scenario theorems -/

/-- Payload whose price value is negative. -/
def negPricePayload : Json := .obj [("price", .obj [("value", .num (-5))])]

/-- Scenario payload: item 100 USD, shipping option 10, ship-from JP,
explicit import duty 11. -/
def taxScenarioPayload : Json := .obj [
  ("title", .str "Camera"),
  ("price", .obj [("value", .num 100), ("currency", .str "USD")]),
  ("shippingOptions", .arr [.obj [("shippingCost", .obj [("value", .num 10)]), ("shippingCostType", .str "FIXED")]]),
  ("itemLocation", .obj [("country", .str "JP")]),
  ("importDuty", .obj [("amount", .obj [("value", .num 11)])])]

/-- Scenario payload: ship-from JP, no explicit duty, shipping 20, item 100. -/
def jpNoDutyPayload : Json := .obj [
  ("price", .obj [("value", .num 100)]),
  ("shippingOptions", .arr [.obj [("shippingCost", .obj [("value", .num 20)]), ("shippingCostType", .str "FIXED")]]),
  ("itemLocation", .obj [("country", .str "JP")])]

/-- Payload like `jpNoDutyPayload` but with an explicit zero import duty. -/
def zeroDutyJpPayload : Json := .obj [
  ("price", .obj [("value", .num 100)]),
  ("shippingOptions", .arr [.obj [("shippingCost", .obj [("value", .num 20)]), ("shippingCostType", .str "FIXED")]]),
  ("itemLocation", .obj [("country", .str "JP")]),
  ("importDuty", .obj [("amount", .obj [("value", .num 0)])])]

/-- Scenario payload: no shipping options, title advertises free shipping. -/
def freeShipPayload : Json := .obj [
  ("title", .str "Vintage lens - Free Shipping!"),
  ("price", .obj [("value", .num 50), ("currency", .str "USD")]),
  ("itemLocation", .obj [("country", .str "US")])]

/-- Body of a 400 response carrying vendor error 11006. -/
def groupErrBody : Json := .obj [("errors", .arr [.obj [("errorId", .num 11006), ("message", .str "item group")]])]

/-- Group-search body whose first summary carries a legacy item id. -/
def searchFoundBody (id : Json) : Json :=
  .obj [("itemSummaries", .arr [.obj [("legacyItemId", id)]])]

/-- Group-search body with no members. -/
def searchEmptyBody : Json := .obj [("itemSummaries", .arr [])]

/-- Credential store with both tokens present. -/
def c6Store : List (String × String) :=
  [("EBAY_USER_TOKEN", "tok"), ("EBAY_REFRESH_TOKEN", "ref")]

/-- Environment where the stored token is invalid, the refresh endpoint
succeeds, but persisting the new tokens fails. -/
def c6Env : AuthEnv := {
  appId := some "app"
  clientSecret := some "secret"
  suffix := ""
  store := c6Store
  probe := .status 401
  tokenEndpoint := some (.obj [("access_token", .str "newA"), ("refresh_token", .str "newR")])
  persistOk := false }

/-- Credential store holding an old access and refresh token. -/
def c7Store : List (String × String) :=
  [("EBAY_USER_TOKEN", "OLD_A"), ("EBAY_REFRESH_TOKEN", "OLD_R")]

/-- A successful token-endpoint body that does not rotate the refresh token. -/
def c7Data : Json := .obj [("access_token", .str "NEW_A")]

def c5FirstOpt : Json := .obj [("shippingCost", .obj [("value", .num 20)]), ("shippingCostType", .str "FIXED")]

def c5OptsFields : List (String × Json) := [("shippingOptions", .arr [c5FirstOpt])]

def c5FreeFields : List (String × Json) := [("title", .str "Free shipping for you")]

def c5DictFields : List (String × Json) := [("shipping", .obj [("cost", .num 7)])]

def c5TextFields : List (String × Json) := [("subtitle", .str "us $5 shipping")]

def authEnvNoToken : AuthEnv := {
  appId := some "app"
  clientSecret := some "secret"
  suffix := ""
  store := []
  probe := .status 401
  tokenEndpoint := none
  persistOk := true }

def authEnvValid : AuthEnv := {
  appId := some "app"
  clientSecret := some "secret"
  suffix := ""
  store := c6Store
  probe := .status 200
  tokenEndpoint := none
  persistOk := true }

def authEnvNoRefresh : AuthEnv := {
  appId := some "app"
  clientSecret := some "secret"
  suffix := ""
  store := [("EBAY_USER_TOKEN", "tok")]
  probe := .status 401
  tokenEndpoint := none
  persistOk := true }

def authEnvRefreshFail : AuthEnv := {
  appId := some "app"
  clientSecret := some "secret"
  suffix := ""
  store := c6Store
  probe := .status 401
  tokenEndpoint := none
  persistOk := true }

/-! ## Supporting lemmas -/

theorem leadsWith_append_self : ∀ (n t : List Char), leadsWith n (n ++ t) = true := by
  intro n
  induction n with
  | nil => intro t; rfl
  | cons c cs ih => intro t; simp [leadsWith, ih]

theorem leadsWith_mono : ∀ (n h t : List Char), leadsWith n h = true → leadsWith n (h ++ t) = true := by
  intro n
  induction n with
  | nil => intro h t _; rfl
  | cons c cs ih =>
      intro h t hl
      cases h with
      | nil => simp [leadsWith] at hl
      | cons d ds =>
          simp only [leadsWith, Bool.and_eq_true] at hl
          simp [leadsWith, hl.1, ih ds t hl.2]

theorem hasSub_cons {n h : List Char} (c : Char) (hh : hasSub n h = true) :
    hasSub n (c :: h) = true := by
  rw [hasSub]
  simp [hh]

theorem hasSub_append_left : ∀ (A : List Char) {n h : List Char},
    hasSub n h = true → hasSub n (A ++ h) = true := by
  intro A
  induction A with
  | nil => intro n h hh; simpa using hh
  | cons c cs ih => intro n h hh; exact hasSub_cons c (ih hh)

theorem hasSub_append_right : ∀ {n h : List Char} (t : List Char),
    hasSub n h = true → hasSub n (h ++ t) = true := by
  intro n h
  induction h with
  | nil =>
      intro t hh
      simp only [hasSub] at hh
      cases n with
      | nil => cases t with
        | nil => rfl
        | cons x xs => simp [hasSub, leadsWith]
      | cons c cs => simp [leadsWith] at hh
  | cons d ds ih =>
      intro t hh
      simp only [hasSub, Bool.or_eq_true] at hh
      rcases hh with hl | hr
      · have h2 := leadsWith_mono n (d :: ds) t hl
        rw [List.cons_append, hasSub]
        rw [List.cons_append] at h2
        simp [h2]
      · have h2 := ih t hr
        rw [List.cons_append, hasSub]
        simp [h2]

theorem hasSub_self_mid (n A B : List Char) : hasSub n (A ++ (n ++ B)) = true := by
  apply hasSub_append_left
  cases n with
  | nil => cases B with
    | nil => rfl
    | cons x xs => simp [hasSub, leadsWith]
  | cons c cs =>
      have h2 := leadsWith_append_self (c :: cs) B
      rw [List.cons_append] at h2 ⊢
      rw [hasSub]
      simp [h2]

theorem hasSub_ne_nil {c : Char} {cs l : List Char} (h : hasSub (c :: cs) l = true) : l ≠ [] := by
  intro he
  subst he
  simp [hasSub, leadsWith] at h

theorem innerScan_after : ∀ ps, innerScan ps = none → (afterItm ps).bind innerScan = none := by
  intro ps
  induction ps with
  | nil => intro _; rfl
  | cons p t ih =>
      intro h
      simp only [innerScan] at h
      split at h
      · exact absurd h (by simp)
      · rw [afterItm]
        by_cases hp : p = "itm".toList
        · rw [if_pos hp]; simpa using h
        · rw [if_neg hp]; exact ih h

theorem outer_eq : ∀ l, outerScan l = (afterItm l).bind innerScan := by
  intro l
  induction l with
  | nil => rfl
  | cons p t ih =>
      rw [outerScan, afterItm]
      by_cases hp : p = "itm".toList
      · by_cases ht : t = []
        · subst ht
          rw [if_neg (by simp [hp]), if_pos hp]
          simp [outerScan, innerScan]
        · rw [if_pos ⟨hp, ht⟩, if_pos hp]
          cases hI : innerScan t with
          | some x => simp [hI]
          | none =>
              simp only [hI]
              show outerScan t = innerScan t
              rw [ih, innerScan_after t hI, hI]
      · rw [if_neg (fun hc => hp hc.1), if_neg hp]
        exact ih

theorem afterItm_decomp : ∀ {l r : List (List Char)}, afterItm l = some r →
    ∃ pre, l = pre ++ ("itm".toList :: r) := by
  intro l
  induction l with
  | nil => intro r h; simp [afterItm] at h
  | cons p t ih =>
      intro r h
      rw [afterItm] at h
      by_cases hp : p = "itm".toList
      · rw [if_pos hp] at h
        cases h
        exact ⟨[], by simp [hp]⟩
      · rw [if_neg hp] at h
        obtain ⟨pre, hpre⟩ := ih h
        exact ⟨p :: pre, by simp [hpre]⟩

theorem splitChar_ne_nil (c : Char) : ∀ l, splitChar c l ≠ [] := by
  intro l
  cases l with
  | nil => simp [splitChar]
  | cons x xs =>
      rw [splitChar]
      cases h : splitChar c xs with
      | nil => simp
      | cons y ys =>
          by_cases hx : x = c
          · simp [hx]
          · simp [hx]

theorem join_split (c : Char) : ∀ l, joinChar c (splitChar c l) = l := by
  intro l
  induction l with
  | nil => rfl
  | cons x xs ih =>
      rw [splitChar]
      cases h : splitChar c xs with
      | nil => exact absurd h (splitChar_ne_nil c xs)
      | cons y ys =>
          rw [h] at ih
          show joinChar c (if x = c then [] :: y :: ys else (x :: y) :: ys) = x :: xs
          by_cases hx : x = c
          · rw [if_pos hx]
            subst hx
            cases ys with
            | nil => simpa [joinChar] using ih
            | cons z zs => simpa [joinChar] using ih
          · rw [if_neg hx]
            cases ys with
            | nil => simpa [joinChar] using ih
            | cons z zs => simpa [joinChar] using ih

theorem joinChar_cons (c : Char) (x : List Char) {ys : List (List Char)} (h : ys ≠ []) :
    joinChar c (x :: ys) = x ++ c :: joinChar c ys := by
  cases ys with
  | nil => exact absurd rfl h
  | cons z zs => rfl

theorem joinChar_append (c : Char) : ∀ (pre : List (List Char)) {suf : List (List Char)},
    pre ≠ [] → suf ≠ [] → joinChar c (pre ++ suf) = joinChar c pre ++ c :: joinChar c suf := by
  intro pre
  induction pre with
  | nil => intro suf h _; exact absurd rfl h
  | cons a pre' ih =>
      intro suf _ hs
      cases pre' with
      | nil => simpa [joinChar] using joinChar_cons c a hs
      | cons b pre'' =>
          have h1 : (b :: pre'') ++ suf ≠ [] := by simp
          rw [List.cons_append, joinChar_cons c a h1, ih (by simp) hs,
              joinChar_cons c a (by simp)]
          simp

theorem splitChar_cons_sep (c : Char) (xs : List Char) :
    splitChar c (c :: xs) = [] :: splitChar c xs := by
  rw [splitChar]
  cases h : splitChar c xs with
  | nil => exact absurd h (splitChar_ne_nil c xs)
  | cons y ys =>
      show (if c = c then [] :: y :: ys else (c :: y) :: ys) = [] :: y :: ys
      rw [if_pos rfl]

theorem splitNetloc_shape (l : List Char) :
    splitNetloc l = ([], l) ∨
    ∃ r, l = '/' :: '/' :: r ∧
      splitNetloc l =
        (r.takeWhile (fun c => !isNetlocDelim c), r.dropWhile (fun c => !isNetlocDelim c)) := by
  match l with
  | [] => exact Or.inl rfl
  | [c] => exact Or.inl rfl
  | a :: b :: r =>
      by_cases h : a = '/' ∧ b = '/'
      · right
        refine ⟨r, by rw [h.1, h.2], ?_⟩
        rw [splitNetloc, if_pos h]
      · left
        rw [splitNetloc, if_neg h]

theorem afterScheme_suffix (l : List Char) : ∃ pre, l = pre ++ afterScheme l := by
  unfold afterScheme
  split
  · exact ⟨[], rfl⟩
  · rename_i i hi
    split
    · exact ⟨l.take (i + 1), (List.take_append_drop (i + 1) l).symm⟩
    · exact ⟨[], rfl⟩

theorem dropWhile_head_delim : ∀ (l : List Char),
    l.dropWhile (fun c => !isNetlocDelim c) = [] ∨
    ∃ h t, l.dropWhile (fun c => !isNetlocDelim c) = h :: t ∧ isNetlocDelim h = true := by
  intro l
  induction l with
  | nil => exact Or.inl rfl
  | cons x xs ih =>
      by_cases hx : isNetlocDelim x = true
      · right
        exact ⟨x, xs, by simp [List.dropWhile_cons, hx], hx⟩
      · simp only [List.dropWhile_cons, hx, Bool.not_false, if_true]
        exact ih

theorem path_of_rest {r rest path : List Char}
    (hrest : rest = r.dropWhile (fun c => !isNetlocDelim c))
    (hpath : path = (rest.takeWhile (fun c => c != '#')).takeWhile (fun c => c != '?')) :
    path = [] ∨ ∃ t, path = '/' :: t := by
  rcases dropWhile_head_delim r with hnil | ⟨h, t, hh, hd⟩
  · left
    rw [hpath, hrest, hnil]
    rfl
  · rw [← hrest] at hh
    have hd' : h = '/' ∨ h = '?' ∨ h = '#' := by
      simp only [isNetlocDelim, Bool.or_eq_true, beq_iff_eq] at hd
      tauto
    rcases hd' with h1 | h1 | h1 <;> subst h1 <;> rw [hpath, hh]
    · right
      refine ⟨(t.takeWhile (fun c => c != '#')).takeWhile (fun c => c != '?'), ?_⟩
      rw [List.takeWhile_cons_of_pos (by decide), List.takeWhile_cons_of_pos (by decide)]
    · left
      rw [List.takeWhile_cons_of_pos (by decide), List.takeWhile_cons_of_neg (by decide)]
    · left
      rw [List.takeWhile_cons_of_neg (by decide)]
      rfl

theorem itm_in_url {url : String} {nl path : List Char} (hu : urlparse url = (nl, path))
    (hn : nl ≠ []) {x : List Char}
    (hb : (afterItm (splitChar '/' path)).bind innerScan = some x) :
    hasSub "/itm/".toList url.toList = true := by
  cases hA : afterItm (splitChar '/' path) with
  | none => rw [hA] at hb; simp at hb
  | some rr =>
  rw [hA] at hb
  simp only [Option.some_bind] at hb
  unfold urlparse at hu
  rcases splitNetloc_shape (afterScheme url.toList) with hsh | ⟨r, hr, hsh⟩
  · rw [hsh] at hu
    simp only [Prod.mk.injEq] at hu
    exact absurd hu.1.symm hn
  · rw [hsh] at hu
    simp only [Prod.mk.injEq] at hu
    obtain ⟨hnl, hpath⟩ := hu
    rcases path_of_rest rfl hpath.symm with hempty | ⟨pt, hpt⟩
    · rw [hempty] at hA
      simp [splitChar, afterItm] at hA
    · have hrr : rr ≠ [] := by
        intro hrrnil
        subst hrrnil
        simp [innerScan] at hb
      obtain ⟨pre, hdec⟩ := afterItm_decomp hA
      have hpre : pre ≠ [] := by
        intro hpn
        subst hpn
        rw [hpt, splitChar_cons_sep] at hdec
        simp only [List.nil_append, List.cons.injEq] at hdec
        exact absurd hdec.1.symm (by decide)
      have hjoin : joinChar '/' (splitChar '/' path) = path := join_split '/' path
      rw [hdec, joinChar_append '/' pre hpre (by simp), joinChar_cons '/' _ hrr] at hjoin
      have hmid : joinChar '/' pre ++ '/' :: ("itm".toList ++ '/' :: joinChar '/' rr) =
          joinChar '/' pre ++ ("/itm/".toList ++ joinChar '/' rr) := by
        simp
      have hsubPath : hasSub "/itm/".toList path = true := by
        rw [← hjoin, hmid]
        exact hasSub_self_mid "/itm/".toList (joinChar '/' pre) (joinChar '/' rr)
      obtain ⟨preS, hps⟩ := afterScheme_suffix url.toList
      rw [hr] at hps
      have e1 : (r.dropWhile fun c => !isNetlocDelim c).takeWhile (fun c => c != '#') =
          path ++ ((r.dropWhile fun c => !isNetlocDelim c).takeWhile (fun c => c != '#')).dropWhile (fun c => c != '?') := by
        rw [← hpath]
        exact (List.takeWhile_append_dropWhile _ _).symm
      have s1 : hasSub "/itm/".toList ((r.dropWhile fun c => !isNetlocDelim c).takeWhile (fun c => c != '#')) = true := by
        rw [e1]
        exact hasSub_append_right _ hsubPath
      have e2 : (r.dropWhile fun c => !isNetlocDelim c) =
          ((r.dropWhile fun c => !isNetlocDelim c).takeWhile (fun c => c != '#')) ++
            ((r.dropWhile fun c => !isNetlocDelim c).dropWhile (fun c => c != '#')) := by
        exact (List.takeWhile_append_dropWhile _ _).symm
      have s2 : hasSub "/itm/".toList (r.dropWhile fun c => !isNetlocDelim c) = true := by
        rw [e2]
        exact hasSub_append_right _ s1
      have e3 : r = (r.takeWhile fun c => !isNetlocDelim c) ++ (r.dropWhile fun c => !isNetlocDelim c) := by
        exact (List.takeWhile_append_dropWhile _ _).symm
      have s3 : hasSub "/itm/".toList r = true := by
        rw [e3]
        exact hasSub_append_left _ s2
      have s4 : hasSub "/itm/".toList ('/' :: '/' :: r) = true :=
        hasSub_cons '/' (hasSub_cons '/' s3)
      rw [hps]
      exact hasSub_append_left preS s4

theorem parse_listing_shape {url id : String} {item : Json} {rate : ℚ} {r : ListingRecord}
    (h : parse_listing url id item rate = some r) :
    ∃ f, item = .obj f ∧
      price_extract f = some (r.item_price, r.currency) ∧
      shipping_extract f = some (r.shipping_type, r.shipping_cost) ∧
      ∃ explicit, explicit_import_extract f = some explicit ∧
        r.ship_from_country = ship_from_extract f ∧
        r.import_charges = import_charges_of explicit r.item_price r.shipping_cost r.ship_from_country ∧
        r.sales_tax = (r.item_price + r.shipping_cost + r.import_charges) * rate ∧
        r.price = r.item_price + r.shipping_cost + r.import_charges + r.sales_tax := by
  cases item with
  | obj f =>
      refine ⟨f, rfl, ?_⟩
      simp only [parse_listing, bind, Option.bind_eq_some, Option.some.injEq] at h
      obtain ⟨⟨ip, cur⟩, hpe, h⟩ := h
      obtain ⟨⟨ty, sc⟩, hse, h⟩ := h
      obtain ⟨explicit, hie, h⟩ := h
      obtain ⟨brand, hbe, h⟩ := h
      obtain ⟨images, hime, h⟩ := h
      obtain ⟨⟨sn, sr⟩, hsel, h⟩ := h
      obtain ⟨⟨lt, ao⟩, hbuy, h⟩ := h
      obtain ⟨⟨ra, rp, rpt⟩, hret, h⟩ := h
      simp only [Option.pure_def, Option.some.injEq] at h
      subst h
      exact ⟨hpe, hse, explicit, hie, rfl, rfl, rfl, rfl⟩
  | null => simp [parse_listing] at h
  | bool b => simp [parse_listing] at h
  | num q => simp [parse_listing] at h
  | str s => simp [parse_listing] at h
  | arr l => simp [parse_listing] at h

theorem nonnegList_head {j : Json} {t : List Json} (h : nonnegList (j :: t) = true) :
    nonnegVals j = true := by
  rw [nonnegList] at h
  exact (Bool.and_eq_true _ _ |>.mp h).1

theorem lookup_nonneg : ∀ {f : List (String × Json)} {k : String} {v : Json},
    nonnegFields f = true → lookupKey f k = some v → nonnegVals v = true := by
  intro f
  induction f with
  | nil => intro k v _ h; simp [lookupKey] at h
  | cons p rest ih =>
      intro k v hf hl
      obtain ⟨k', j⟩ := p
      rw [nonnegFields] at hf
      simp only [Bool.and_eq_true] at hf
      rw [lookupKey] at hl
      by_cases hk : (k' == k) = true
      · rw [if_pos hk] at hl
        cases hl
        exact hf.1
      · rw [if_neg hk] at hl
        exact ih hf.2 hl

theorem getD_nonneg {f : List (String × Json)} {k : String} {d : Json}
    (hf : nonnegFields f = true) (hd : nonnegVals d = true) :
    nonnegVals (getD f k d) = true := by
  unfold getD
  cases hl : lookupKey f k with
  | none => simpa using hd
  | some v => simpa using lookup_nonneg hf hl

theorem pyFloat_nonneg {v : Json} {q : ℚ} (hv : nonnegVals v = true) (h : pyFloat v = some q) :
    0 ≤ q := by
  cases v with
  | num r =>
      simp only [pyFloat, Option.some.injEq] at h
      subst h
      simpa [nonnegVals] using hv
  | bool b =>
      simp only [pyFloat, Option.some.injEq] at h
      subst h
      cases b <;> norm_num
  | str s =>
      simp only [pyFloat] at h
      rw [nonnegVals, h] at hv
      simpa using hv
  | null => simp [pyFloat] at h
  | arr l => simp [pyFloat] at h
  | obj l => simp [pyFloat] at h

theorem price_extract_nonneg {f : List (String × Json)} {ip : ℚ} {cur : Json}
    (hf : nonnegFields f = true) (h : price_extract f = some (ip, cur)) : 0 ≤ ip := by
  unfold price_extract at h
  by_cases ht : pyTruthy (getD f "price" (.obj [])) = true
  · rw [if_pos ht] at h
    cases hP : getD f "price" (.obj []) with
    | obj pf =>
        rw [hP] at h
        simp only [bind, Option.bind_eq_some, Option.pure_def, Option.some.injEq] at h
        obtain ⟨q, hq, h⟩ := h
        have : ip = q := by
          have := congrArg Prod.fst h.symm
          simpa using this
        subst this
        have hpf : nonnegVals (Json.obj pf) = true := by
          rw [← hP]
          exact getD_nonneg hf (by decide)
        exact pyFloat_nonneg (getD_nonneg hpf (by decide)) hq
    | null => rw [hP] at h; simp at h
    | bool b => rw [hP] at h; simp at h
    | num q => rw [hP] at h; simp at h
    | str s => rw [hP] at h; simp at h
    | arr l => rw [hP] at h; simp at h
  · rw [if_neg ht] at h
    simp only [Option.pure_def, Option.some.injEq] at h
    have : ip = 0 := by
      have := congrArg Prod.fst h.symm
      simpa using this
    subst this
    norm_num

theorem shipping_fallback_nonneg (f : List (String × Json)) : 0 ≤ (shipping_fallback f).2 := by
  unfold shipping_fallback
  split
  · norm_num
  · by_cases hc : extract_shipping_from_additional_fields f > 0
    · simpa [hc] using le_of_lt hc
    · simp [hc]

theorem shipping_of_options_nonneg {first ty : Json} {c : ℚ}
    (hv : nonnegVals first = true) (h : shipping_of_options first = some (ty, c)) : 0 ≤ c := by
  cases first with
  | obj ff =>
      simp only [shipping_of_options] at h
      cases hl : lookupKey ff "shippingCost" with
      | none =>
          rw [hl] at h
          simp only [bind, Option.bind_eq_some] at h
          obtain ⟨y, hy, h⟩ := h
          have hy0 : y = 0 := by simpa using hy.symm
          subst hy0
          split at h
          · simp only [Option.pure_def, Option.some.injEq] at h
            have : c = 0 := by
              have := congrArg Prod.snd h.symm
              simpa using this
            rw [this]
          · simp only [Option.pure_def, Option.some.injEq] at h
            have : c = 0 := by
              have := congrArg Prod.snd h.symm
              simpa using this
            rw [this]
      | some info =>
          rw [hl] at h
          cases info with
          | obj infof =>
              simp only [bind, Option.bind_eq_some] at h
              obtain ⟨cost, hc, h⟩ := h
              have hcost : 0 ≤ cost :=
                pyFloat_nonneg (getD_nonneg (lookup_nonneg hv hl) (by decide)) hc
              split at h
              · simp only [Option.pure_def, Option.some.injEq] at h
                have : c = 0 := by
                  have := congrArg Prod.snd h.symm
                  simpa using this
                rw [this]
              · simp only [Option.pure_def, Option.some.injEq] at h
                have : c = cost := by
                  have := congrArg Prod.snd h.symm
                  simpa using this
                rw [this]
                exact hcost
          | null => simp at h
          | bool b => simp at h
          | num q => simp at h
          | str s => simp at h
          | arr l => simp at h
  | null => simp [shipping_of_options] at h
  | bool b => simp [shipping_of_options] at h
  | num q => simp [shipping_of_options] at h
  | str s => simp [shipping_of_options] at h
  | arr l => simp [shipping_of_options] at h

theorem shipping_extract_nonneg {f : List (String × Json)} {ty : Json} {c : ℚ}
    (hf : nonnegFields f = true) (h : shipping_extract f = some (ty, c)) : 0 ≤ c := by
  have hfb : ∀ hx : shipping_fallback f = (ty, c), 0 ≤ c := by
    intro hx
    have := shipping_fallback_nonneg f
    rw [hx] at this
    exact this
  unfold shipping_extract at h
  cases hl : lookupKey f "shippingOptions" with
  | none =>
      rw [hl] at h
      simp only [Option.some.injEq] at h
      exact hfb h
  | some v =>
      rw [hl] at h
      cases v with
      | arr l =>
          cases l with
          | nil =>
              simp only [Option.some.injEq] at h
              exact hfb h
          | cons first rest =>
              have hfirst : nonnegVals first = true :=
                nonnegList_head (lookup_nonneg hf hl)
              exact shipping_of_options_nonneg hfirst h
      | str s =>
          dsimp only at h
          by_cases hs : s.isEmpty = true
          · rw [if_pos hs] at h
            simp only [Option.some.injEq] at h
            exact hfb h
          · rw [if_neg hs] at h
            simp at h
      | obj l =>
          cases l with
          | nil =>
              simp only [Option.some.injEq] at h
              exact hfb h
          | cons x xs => simp at h
      | null => simp at h
      | bool b => simp at h
      | num q => simp at h

theorem explicit_import_nonneg {f : List (String × Json)} {q : ℚ}
    (hf : nonnegFields f = true) (h : explicit_import_extract f = some q) : 0 ≤ q := by
  unfold explicit_import_extract at h
  cases hl : lookupKey f "importDuty" with
  | none =>
      rw [hl] at h
      simp only [Option.pure_def, Option.some.injEq] at h
      rw [← h]
  | some v =>
      rw [hl] at h
      cases v with
      | obj df =>
          cases ha : lookupKey df "amount" with
          | none =>
              simp only [ha, Option.pure_def, Option.some.injEq] at h
              rw [← h]
          | some amt =>
              simp only [ha] at h
              cases amt with
              | obj af =>
                  have hdf : nonnegVals (Json.obj df) = true := lookup_nonneg hf hl
                  have haf : nonnegVals (Json.obj af) = true := lookup_nonneg hdf ha
                  exact pyFloat_nonneg (getD_nonneg haf (by decide)) h
              | null => simp at h
              | bool b => simp at h
              | num r => simp at h
              | str s => simp at h
              | arr l => simp at h
      | null =>
          simp only [Option.pure_def, Option.some.injEq] at h
          rw [← h]
      | bool b =>
          simp only [Option.pure_def, Option.some.injEq] at h
          rw [← h]
      | num r =>
          simp only [Option.pure_def, Option.some.injEq] at h
          rw [← h]
      | str s =>
          simp only [Option.pure_def, Option.some.injEq] at h
          rw [← h]
      | arr l =>
          simp only [Option.pure_def, Option.some.injEq] at h
          rw [← h]

theorem import_charges_of_nonneg {explicit ip sc : ℚ} (country : Json)
    (he : 0 ≤ explicit) (hip : 0 ≤ ip) (hsc : 0 ≤ sc) :
    0 ≤ import_charges_of explicit ip sc country := by
  unfold import_charges_of
  split
  · exact mul_nonneg (add_nonneg hip hsc) (by norm_num)
  · exact he

theorem shipping_of_options_free_zero {first ty : Json} {c : ℚ}
    (h : shipping_of_options first = some (ty, c)) :
    (isStrEq ty "FREE" = true → c = 0) ∧ (isStrEq ty "FREE" = false → c ≠ 0) := by
  cases first with
  | obj ff =>
      simp only [shipping_of_options] at h
      cases hl : lookupKey ff "shippingCost" with
      | none =>
          rw [hl] at h
          simp only [bind, Option.bind_eq_some] at h
          obtain ⟨y, hy, h⟩ := h
          have hy0 : y = 0 := by simpa using hy.symm
          subst hy0
          split at h
          · simp only [Option.pure_def, Option.some.injEq, Prod.mk.injEq] at h
            refine ⟨fun _ => h.2.symm, fun hfr => ?_⟩
            have hty : isStrEq ty "FREE" = true := by rw [← h.1]; rfl
            rw [hty] at hfr
            simp at hfr
          · rename_i hcond
            exact absurd (by simp) hcond
      | some info =>
          rw [hl] at h
          cases info with
          | obj infof =>
              simp only [bind, Option.bind_eq_some] at h
              obtain ⟨cost, hc, h⟩ := h
              split at h
              · simp only [Option.pure_def, Option.some.injEq, Prod.mk.injEq] at h
                refine ⟨fun _ => h.2.symm, fun hfr => ?_⟩
                rw [← h.1] at hfr
                simp [isStrEq] at hfr
              · rename_i hcond
                simp only [Option.pure_def, Option.some.injEq, Prod.mk.injEq] at h
                simp only [Bool.or_eq_true, not_or, Bool.not_eq_true] at hcond
                refine ⟨fun hfr => ?_, fun _ => ?_⟩
                · rw [← h.1] at hfr
                  rw [hfr] at hcond
                  simp at hcond
                · rw [← h.2]
                  have := hcond.2
                  simpa using this
          | null => simp at h
          | bool b => simp at h
          | num q => simp at h
          | str s => simp at h
          | arr l => simp at h
  | null => simp [shipping_of_options] at h
  | bool b => simp [shipping_of_options] at h
  | num q => simp [shipping_of_options] at h
  | str s => simp [shipping_of_options] at h
  | arr l => simp [shipping_of_options] at h

theorem shipping_fallback_free_zero {f : List (String × Json)} {ty : Json} {c : ℚ}
    (h : shipping_fallback f = (ty, c)) (hfr : isStrEq ty "FREE" = true) : c = 0 := by
  unfold shipping_fallback at h
  split at h
  · cases h
    rfl
  · by_cases hc : extract_shipping_from_additional_fields f > 0
    · rw [if_pos hc] at h
      cases h
      simp [isStrEq] at hfr
    · rw [if_neg hc] at h
      cases h
      rfl

theorem shipping_extract_free_zero {f : List (String × Json)} {ty : Json} {c : ℚ}
    (h : shipping_extract f = some (ty, c)) (hfr : isStrEq ty "FREE" = true) : c = 0 := by
  unfold shipping_extract at h
  cases hl : lookupKey f "shippingOptions" with
  | none =>
      rw [hl] at h
      simp only [Option.some.injEq] at h
      exact shipping_fallback_free_zero h hfr
  | some v =>
      rw [hl] at h
      cases v with
      | arr l =>
          cases l with
          | nil =>
              simp only [Option.some.injEq] at h
              exact shipping_fallback_free_zero h hfr
          | cons first rest =>
              exact (shipping_of_options_free_zero h).1 hfr
      | str s =>
          dsimp only at h
          by_cases hs : s.isEmpty = true
          · rw [if_pos hs] at h
            simp only [Option.some.injEq] at h
            exact shipping_fallback_free_zero h hfr
          · rw [if_neg hs] at h
            simp at h
      | obj l =>
          cases l with
          | nil =>
              simp only [Option.some.injEq] at h
              exact shipping_fallback_free_zero h hfr
          | cons x xs => simp at h
      | null => simp at h
      | bool b => simp at h
      | num q => simp at h

theorem getEnv_setKey_self (k v : String) : ∀ st, getEnv (setKey st k v) k = some v := by
  intro st
  induction st with
  | nil => simp [setKey, getEnv]
  | cons p rest ih =>
      obtain ⟨k'', v''⟩ := p
      rw [setKey]
      by_cases hk : (k'' == k) = true
      · rw [if_pos hk]
        simp [getEnv]
      · rw [if_neg hk]
        rw [getEnv, if_neg hk]
        exact ih

theorem getEnv_setKey_ne {k k2 : String} (h : (k == k2) = false) (v : String) :
    ∀ st, getEnv (setKey st k v) k2 = getEnv st k2 := by
  intro st
  induction st with
  | nil => simp [setKey, getEnv, h]
  | cons p rest ih =>
      obtain ⟨k'', v''⟩ := p
      rw [setKey]
      by_cases hk : (k'' == k) = true
      · rw [if_pos hk]
        have hk2 : (k'' == k2) = false := by
          have h1 : k'' = k := by simpa using hk
          subst h1
          exact h
        rw [getEnv, if_neg (by simp [h]), getEnv, if_neg (by simp [hk2])]
      · rw [if_neg hk]
        rw [getEnv, getEnv]
        by_cases hk2 : (k'' == k2) = true
        · rw [if_pos hk2, if_pos hk2]
        · rw [if_neg hk2, if_neg hk2]
          exact ih

theorem envKey_user_ne_refresh (suffix : String) :
    (envKey "EBAY_REFRESH_TOKEN" suffix == envKey "EBAY_USER_TOKEN" suffix) = false := by
  unfold envKey
  split
  · decide
  · simp only [beq_eq_false_iff_ne, ne_eq]
    intro h
    have hd := congrArg String.data h
    simp only [String.data_append] at hd
    simp at hd

theorem envKey_user_ne_refresh2 (suffix : String) :
    (envKey "EBAY_USER_TOKEN" suffix == envKey "EBAY_REFRESH_TOKEN" suffix) = false := by
  unfold envKey
  split
  · decide
  · simp only [beq_eq_false_iff_ne, ne_eq]
    intro h
    have hd := congrArg String.data h
    simp only [String.data_append] at hd
    simp at hd

theorem run_5xx_cons {s : ℕ} (h : 500 ≤ s) (fuel mr attempt : ℕ) (b : Option Json) (rest : List Outcome)
    (hmr : attempt < mr) :
    get_item_details_from (fuel + 1) mr attempt (.resp s b :: rest) =
      if attempt < mr - 1 then
        (let x := get_item_details_from fuel mr (attempt + 1) rest
         (x.1, 2 ^ attempt :: x.2.1, x.2.2))
      else (.err (.apiError (.server s)), [], rest) := by
  have h200 : (s == 200) = false := by
    simp only [beq_eq_false_iff_ne, ne_eq]
    omega
  have h4b : decide (s < 500) = false := decide_eq_false (by omega)
  rw [get_item_details_from]
  simp only [if_pos hmr, nextOutcome, h200, Bool.false_eq_true, if_false, h4b,
    Bool.and_false, if_pos h]

theorem run_other_cons {s : ℕ} (h1 : s ≠ 200) (h2 : s < 400) (fuel mr attempt : ℕ)
    (b : Option Json) (rest : List Outcome) (hmr : attempt < mr) :
    get_item_details_from (fuel + 1) mr attempt (.resp s b :: rest) =
      get_item_details_from fuel mr (attempt + 1) rest := by
  have h200 : (s == 200) = false := by simp [h1]
  have h4a : decide (400 ≤ s) = false := decide_eq_false (by omega)
  have h5 : ¬ (500 ≤ s) := by omega
  rw [get_item_details_from]
  simp only [if_pos hmr, nextOutcome, h200, Bool.false_eq_true, if_false, h4a,
    Bool.false_and, if_neg h5]

theorem group_non200 {s : ℕ} (hs : (s == 200) = false) (fuel : ℕ) (b : Option Json)
    (rest : List Outcome) :
    get_item_group_details (fuel + 1) (.resp s b :: rest) = (.noData, [], rest) := by
  rw [get_item_group_details]
  simp only [nextOutcome, hs, Bool.false_eq_true, if_false]

theorem item_group_redirect (fuel : ℕ) (tail : List Outcome) :
    get_item_details_from (fuel + 1) 3 0 (.resp 400 (some groupErrBody) :: tail) =
      (let x := get_item_group_details fuel tail
       (match x.1 with
        | .found p => (FetchResult.payload p, x.2.1, x.2.2)
        | .noData => (FetchResult.noneResult, x.2.1, x.2.2)
        | .fuelOut => (FetchResult.fuelOut, x.2.1, x.2.2))) := by
  rw [get_item_details_from]
  rcases hg : get_item_group_details fuel tail with ⟨g, sl, t⟩
  simp [nextOutcome, parse400, groupErrBody, iter400, scan400, isNumEq, getD, lookupKey, hg]

/-! ## Claim theorems -/

/-- C1 (amended): every payload `fetch_listing_data` successfully normalizes
yields a record with `price = item_price + shipping_cost + import_charges +
sales_tax` and `sales_tax = (item_price + shipping_cost + import_charges) *
configured_tax_rate`, exactly; the four summed components are non-negative
provided every numeric value in the payload and the configured tax rate are
non-negative (the claim's unconditional non-negativity fails on payloads
carrying negative numbers, see the counterexample). -/
theorem C1_price_invariant : ∀ (url id : String) (item : Json) (rate : ℚ) (r : ListingRecord),
    parse_listing url id item rate = some r →
    (r.price = r.item_price + r.shipping_cost + r.import_charges + r.sales_tax ∧
     r.sales_tax = (r.item_price + r.shipping_cost + r.import_charges) * rate) ∧
    (nonnegVals item = true → 0 ≤ rate →
      0 ≤ r.item_price ∧ 0 ≤ r.shipping_cost ∧ 0 ≤ r.import_charges ∧ 0 ≤ r.sales_tax) := by
  intro url id item rate r h
  obtain ⟨f, hobj, hpe, hse, explicit, hie, hcty, himp, htax, hprice⟩ := parse_listing_shape h
  refine ⟨⟨hprice, htax⟩, ?_⟩
  intro hnn hrate
  subst hobj
  have hf : nonnegFields f = true := hnn
  have hip := price_extract_nonneg hf hpe
  have hsc := shipping_extract_nonneg hf hse
  have hexp := explicit_import_nonneg hf hie
  have himp' : 0 ≤ r.import_charges := by
    rw [himp]
    exact import_charges_of_nonneg _ hexp hip hsc
  refine ⟨hip, hsc, himp', ?_⟩
  rw [htax]
  exact mul_nonneg (by linarith) hrate

/-- Witness for C1 at the spec's tax scenario (item 100, shipping 10, duty 11,
rate 0.08): the parse succeeds and the invariant holds there. -/
theorem C1_price_invariant_witness :
    ∃ r, parse_listing "https://www.ebay.com/itm/5" "5" taxScenarioPayload (8/100) = some r ∧
      (r.price = r.item_price + r.shipping_cost + r.import_charges + r.sales_tax ∧
       r.sales_tax = (r.item_price + r.shipping_cost + r.import_charges) * (8/100)) ∧
      (0 ≤ r.item_price ∧ 0 ≤ r.shipping_cost ∧ 0 ≤ r.import_charges ∧ 0 ≤ r.sales_tax) := by
  have hs : (parse_listing "https://www.ebay.com/itm/5" "5" taxScenarioPayload (8/100)).isSome = true := by
    rfl
  have hr := (Option.some_get hs).symm
  have h1 := C1_price_invariant "https://www.ebay.com/itm/5" "5" taxScenarioPayload (8/100) _ hr
  exact ⟨_, hr, h1.1, h1.2 (by decide) (by norm_num)⟩

/-- Counterexample to C1 as stated: a payload whose price value is `-5`
normalizes successfully into a record whose `item_price` is negative, so the
"all four summed components are non-negative" part of the claim is false. -/
theorem C1_counterexample :
    (parse_listing "https://www.ebay.com/itm/1" "1" negPricePayload 0).map ListingRecord.item_price
      = some (-5) ∧ ¬ (0 : ℚ) ≤ (-5 : ℚ) := by
  constructor
  · rfl
  · norm_num

/-- C2 (amended): import charges use the explicit `importDuty.amount.value`
whenever that value is nonzero; when the explicit value is 0 — because the
field is absent, malformed, or an explicit zero — and the ship-from country
is not "US", they are 10% of `item_price + shipping_cost`, and 0 for "US";
the JP scenario (no duty, shipping 20, item 100) yields 12.0. -/
theorem C2_import_charges :
    (∀ explicit ip sc : ℚ, ∀ country : Json, explicit ≠ 0 →
        import_charges_of explicit ip sc country = explicit) ∧
    (∀ ip sc : ℚ, ∀ country : Json, isStrEq country "US" = false →
        import_charges_of 0 ip sc country = (ip + sc) * (1 / 10)) ∧
    (∀ ip sc : ℚ, import_charges_of 0 ip sc (Json.str "US") = 0) ∧
    ((parse_listing "https://www.ebay.com/itm/7" "7" jpNoDutyPayload 0).map ListingRecord.import_charges
      = some 12) := by
  have h0 : (parse_listing "https://www.ebay.com/itm/7" "7" jpNoDutyPayload 0).map ListingRecord.import_charges
      = some ((100 + 20 : ℚ) * (1 / 10)) := rfl
  refine ⟨?_, ?_, ?_, by rw [h0, Option.some.injEq]; norm_num⟩
  · intro explicit ip sc country hne
    unfold import_charges_of
    simp [hne]
  · intro ip sc country hc
    unfold import_charges_of
    simp [hc]
  · intro ip sc
    unfold import_charges_of
    simp [isStrEq]

/-- Witness for C2 at concrete values: explicit duty 11 is kept, the JP
estimate gives 12, and the US case gives 0. -/
theorem C2_import_charges_witness :
    import_charges_of 11 100 10 (Json.str "JP") = 11 ∧
    import_charges_of 0 100 20 (Json.str "JP") = 12 ∧
    import_charges_of 0 100 20 (Json.str "US") = 0 := by
  have h := C2_import_charges
  refine ⟨h.1 11 100 10 (Json.str "JP") (by norm_num), ?_, h.2.2.1 100 20⟩
  rw [h.2.1 100 20 (Json.str "JP") (by decide)]
  norm_num

/-- Counterexample to C2 as stated: with an explicit `importDuty.amount.value`
of 0 and ship-from JP, the claim requires `import_charges = 0` (the explicit
value), but the code computes the 10% estimate, 12.0. -/
theorem C2_counterexample :
    (parse_listing "https://www.ebay.com/itm/9" "9" zeroDutyJpPayload 0).map ListingRecord.import_charges
      = some 12 ∧ (12 : ℚ) ≠ 0 := by
  have h0 : (parse_listing "https://www.ebay.com/itm/9" "9" zeroDutyJpPayload 0).map ListingRecord.import_charges
      = some ((100 + 20 : ℚ) * (1 / 10)) := rfl
  constructor
  · rw [h0, Option.some.injEq]
    norm_num
  · norm_num

/-- C3: `extract_item_id_from_url` agrees everywhere with the claim's
specification — on URLs whose host contains the vendor domain and whose path
has an `itm` segment followed by a purely-numeric segment (trailing `?...`
stripped) it returns exactly that first numeric segment, and on every other
input it returns nothing (and, being total, never raises). -/
theorem C3_extract_item_id (url : String) :
    extract_item_id_from_url url = extract_item_id_spec url := by
  rcases hu : urlparse url with ⟨nl, path⟩
  simp only [extract_item_id_from_url, extract_item_id_spec, hu]
  by_cases he : hasSub "ebay.com".toList nl = true
  · simp only [he, Bool.not_true, Bool.false_eq_true, if_false, if_true]
    by_cases hg : hasSub "/itm/".toList url.toList = true
    · simp only [hg, if_true]
      rw [outer_eq]
    · simp only [hg, Bool.false_eq_true, if_false]
      cases hb : (afterItm (splitChar '/' path)).bind innerScan with
      | none => simp [hb]
      | some x =>
          have hn : nl ≠ [] := hasSub_ne_nil he
          exact absurd (itm_in_url hu hn hb) hg
  · have he' : hasSub "ebay.com".toList nl = false := by simpa using he
    rw [if_pos (by rw [he']; rfl : (!hasSub "ebay.com".toList nl) = true), if_neg (by rw [he']; simp)]

/-- C5: shipping derivation follows the fixed priority chain — a non-empty
`shippingOptions` wins and is normalized so that a FREE type or zero cost
becomes `(FREE, 0)` and a non-FREE result has nonzero cost; otherwise a
free-shipping text indicator yields `(FREE, 0)`; otherwise a positive cost
from the alternate-field probe yields CALCULATED; otherwise a positive
regex-scanned cost yields CALCULATED; otherwise `(Unknown, 0)`.  In every
normalized record, `shipping_type = FREE` implies `shipping_cost = 0`, and
the free-shipping-title scenario produces `(FREE, 0)`. -/
theorem C5_shipping_priority :
    (∀ (f : List (String × Json)) (first : Json) (rest : List Json),
        lookupKey f "shippingOptions" = some (.arr (first :: rest)) →
        shipping_extract f = shipping_of_options first) ∧
    (∀ (first ty : Json) (c : ℚ), shipping_of_options first = some (ty, c) →
        (isStrEq ty "FREE" = true → c = 0) ∧ (isStrEq ty "FREE" = false → c ≠ 0)) ∧
    (∀ f : List (String × Json), lookupKey f "shippingOptions" = none →
        free_text_indicator f = true → shipping_extract f = some (.str "FREE", 0)) ∧
    (∀ f : List (String × Json), lookupKey f "shippingOptions" = none →
        free_text_indicator f = false → dictPass f potentialFields 0 > 0 →
        shipping_extract f = some (.str "CALCULATED", dictPass f potentialFields 0)) ∧
    (∀ f : List (String × Json), lookupKey f "shippingOptions" = none →
        free_text_indicator f = false → dictPass f potentialFields 0 = 0 →
        textPass f textFields 0 > 0 →
        shipping_extract f = some (.str "CALCULATED", textPass f textFields 0)) ∧
    (∀ f : List (String × Json), lookupKey f "shippingOptions" = none →
        free_text_indicator f = false → dictPass f potentialFields 0 = 0 →
        textPass f textFields 0 = 0 →
        shipping_extract f = some (.str "Unknown", 0)) ∧
    (∀ (url id : String) (item : Json) (rate : ℚ) (r : ListingRecord),
        parse_listing url id item rate = some r →
        isStrEq r.shipping_type "FREE" = true → r.shipping_cost = 0) ∧
    ((parse_listing "https://www.ebay.com/itm/3" "3" freeShipPayload 0).map
        (fun r => (r.shipping_type, r.shipping_cost)) = some (.str "FREE", 0)) := by
  refine ⟨?_, ?_, ?_, ?_, ?_, ?_, ?_, rfl⟩
  · intro f first rest h
    unfold shipping_extract
    rw [h]
  · intro first ty c h
    exact shipping_of_options_free_zero h
  · intro f hnone hfree
    unfold shipping_extract
    rw [hnone]
    unfold shipping_fallback
    rw [if_pos hfree]
  · intro f hnone hfree hd
    unfold shipping_extract
    rw [hnone]
    unfold shipping_fallback
    rw [if_neg (by simp [hfree])]
    have hne : (dictPass f potentialFields 0 == 0) = false := by
      simp [ne_of_gt hd]
    simp only [extract_shipping_from_additional_fields, hne, Bool.false_eq_true, if_false,
      if_pos hd]
  · intro f hnone hfree hd ht
    unfold shipping_extract
    rw [hnone]
    unfold shipping_fallback
    rw [if_neg (by simp [hfree])]
    simp only [extract_shipping_from_additional_fields, hd, beq_self_eq_true, if_true,
      if_pos ht]
  · intro f hnone hfree hd ht
    unfold shipping_extract
    rw [hnone]
    unfold shipping_fallback
    rw [if_neg (by simp [hfree])]
    simp only [extract_shipping_from_additional_fields, hd, beq_self_eq_true, if_true, ht]
    rw [if_neg (by norm_num)]
  · intro url id item rate r h hfr
    obtain ⟨f, hobj, _, hse, _⟩ := parse_listing_shape h
    exact shipping_extract_free_zero hse hfr

/-- Witness for C5 at concrete inputs: an options payload, a free-text title,
a dict-probed cost 7, a regex-scanned cost 5, an empty payload, and the
free-shipping scenario record. -/
theorem C5_shipping_priority_witness :
    shipping_extract c5OptsFields = shipping_of_options c5FirstOpt ∧
    (20 : ℚ) ≠ 0 ∧
    shipping_extract c5FreeFields = some (.str "FREE", 0) ∧
    shipping_extract c5DictFields = some (.str "CALCULATED", dictPass c5DictFields potentialFields 0) ∧
    shipping_extract c5TextFields = some (.str "CALCULATED", textPass c5TextFields textFields 0) ∧
    shipping_extract [] = some (.str "Unknown", 0) ∧
    ∃ r, parse_listing "https://www.ebay.com/itm/3" "3" freeShipPayload 0 = some r ∧
      r.shipping_cost = 0 := by
  have h := C5_shipping_priority
  refine ⟨h.1 c5OptsFields c5FirstOpt [] rfl,
      (h.2.1 c5FirstOpt (.str "FIXED") 20 rfl).2 (by decide),
      h.2.2.1 c5FreeFields rfl (by decide),
      h.2.2.2.1 c5DictFields rfl (by decide) (by decide),
      h.2.2.2.2.1 c5TextFields rfl (by decide) (by decide) (by decide),
      h.2.2.2.2.2.1 [] rfl (by decide) (by decide) (by decide), ?_⟩
  have hs : (parse_listing "https://www.ebay.com/itm/3" "3" freeShipPayload 0).isSome = true := rfl
  have hr := (Option.some_get hs).symm
  exact ⟨_, hr, h.2.2.2.2.2.2.1 _ _ _ _ _ hr rfl⟩

/-- C4: `get_item_details` with `max_retries = 3` follows the retry policy —
three 429s sleep exactly 2 then 4 seconds and fail RateLimited; a 429 then a
200 retries once after one 2-second sleep; a 5xx or transport error sleeps
`2^attempt` (1 then 2) and on exhaustion fails Generic (the network case
wrapping the transport error); 401 and 404 fail immediately with
Unauthorized/ItemNotFound, with no sleep and no retry. -/
theorem C4_retry_policy (s : ℕ) (h5 : 500 ≤ s) (h5' : s ≤ 599) :
    (get_item_details (some ()) 0 9 3 [.resp 429 none, .resp 429 none, .resp 429 none] =
      { didRefreshToken := false, result := .err .rateLimited, sleeps := [2, 4], remaining := [] }) ∧
    (∀ (p : Json) (rest : List Outcome),
      get_item_details (some ()) 0 9 3 (.resp 429 none :: .resp 200 (some p) :: rest) =
        { didRefreshToken := false, result := .payload p, sleeps := [2], remaining := rest }) ∧
    (∀ b1 b2 b3 : Option Json,
      get_item_details (some ()) 0 9 3 [.resp s b1, .resp s b2, .resp s b3] =
        { didRefreshToken := false, result := .err (.apiError (.server s)), sleeps := [1, 2], remaining := [] }) ∧
    (∀ (b : Option Json) (p : Json) (rest : List Outcome),
      get_item_details (some ()) 0 9 3 (.resp s b :: .resp 200 (some p) :: rest) =
        { didRefreshToken := false, result := .payload p, sleeps := [1], remaining := rest }) ∧
    (get_item_details (some ()) 0 9 3 [.connError, .timeout, .timeout] =
      { didRefreshToken := false, result := .err (.apiError (.network .timedOut)), sleeps := [1, 2], remaining := [] }) ∧
    (∀ (b : Option Json) (rest : List Outcome),
      get_item_details (some ()) 0 9 3 (.resp 401 b :: rest) =
        { didRefreshToken := false, result := .err .unauthorized, sleeps := [], remaining := rest }) ∧
    (∀ (b : Option Json) (rest : List Outcome),
      get_item_details (some ()) 0 9 3 (.resp 404 b :: rest) =
        { didRefreshToken := false, result := .err .itemNotFound, sleeps := [], remaining := rest }) := by
  refine ⟨rfl, fun p rest => rfl, ?_, ?_, rfl, fun b rest => rfl, fun b rest => rfl⟩
  · intro b1 b2 b3
    have e3 := run_5xx_cons h5 6 3 2 b3 [] (by omega)
    rw [if_neg (by omega)] at e3
    have e2 := run_5xx_cons h5 7 3 1 b2 [.resp s b3] (by omega)
    rw [if_pos (by omega)] at e2
    have e1 := run_5xx_cons h5 8 3 0 b1 [.resp s b2, .resp s b3] (by omega)
    rw [if_pos (by omega)] at e1
    have e3' : get_item_details_from 7 3 2 [Outcome.resp s b3] =
        (.err (.apiError (.server s)), [], []) := e3
    have e2' : get_item_details_from 8 3 1 [Outcome.resp s b2, Outcome.resp s b3] =
        (.err (.apiError (.server s)), [2 ^ 1], []) := by
      rw [e2, e3']
    have e1' : get_item_details_from 9 3 0 [Outcome.resp s b1, Outcome.resp s b2, Outcome.resp s b3] =
        (.err (.apiError (.server s)), [2 ^ 0, 2 ^ 1], []) := by
      rw [e1, e2']
    have hsl : ([2 ^ 0, 2 ^ 1] : List ℕ) = [1, 2] := by norm_num
    rw [hsl] at e1'
    simp [get_item_details, e1', should_refresh_token]
  · intro b p rest
    have hstep := run_5xx_cons h5 8 3 0 b (.resp 200 (some p) :: rest) (by omega)
    rw [if_pos (by omega)] at hstep
    have hin : get_item_details_from 8 3 1 (.resp 200 (some p) :: rest) =
        (.payload p, [], rest) := rfl
    have hloop : get_item_details_from 9 3 0 (.resp s b :: .resp 200 (some p) :: rest) =
        (.payload p, [1], rest) := by
      rw [hstep, hin]
      norm_num
    simp [get_item_details, hloop, should_refresh_token]

/-- Witness for C4 at status 503: exhaustion and one-retry traces. -/
theorem C4_retry_policy_witness :
    (get_item_details (some ()) 0 9 3 [.resp 429 none, .resp 429 none, .resp 429 none]).sleeps = [2, 4] ∧
    get_item_details (some ()) 0 9 3 [.resp 503 none, .resp 503 none, .resp 503 none] =
      { didRefreshToken := false, result := .err (.apiError (.server 503)), sleeps := [1, 2], remaining := [] } ∧
    get_item_details (some ()) 0 9 3 [.resp 503 none, .resp 200 (some (.num 1))] =
      { didRefreshToken := false, result := .payload (.num 1), sleeps := [1], remaining := [] } := by
  have h := C4_retry_policy 503 (by norm_num) (by norm_num)
  exact ⟨by rw [h.1], h.2.2.1 none none none, h.2.2.2.1 none (.num 1) []⟩

/-- C9: a 400 carrying vendor error 11006 redirects to group resolution —
a group search whose first summary carries a legacy item id leads to a
recursive item fetch (three HTTP requests total for the resolved payload);
an empty group, a non-200 search response, or a search transport error all
yield `None` rather than a typed error. -/
theorem C9_item_group (s : ℕ) (hs : s ≠ 200) :
    (∀ (id p : Json) (rest : List Outcome),
      get_item_details (some ()) 0 9 3
          (.resp 400 (some groupErrBody) :: .resp 200 (some (searchFoundBody id)) :: .resp 200 (some p) :: rest) =
        { didRefreshToken := false, result := .payload p, sleeps := [], remaining := rest }) ∧
    (∀ rest : List Outcome,
      get_item_details (some ()) 0 9 3
          (.resp 400 (some groupErrBody) :: .resp 200 (some searchEmptyBody) :: rest) =
        { didRefreshToken := false, result := .noneResult, sleeps := [], remaining := rest }) ∧
    (∀ (b : Option Json) (rest : List Outcome),
      get_item_details (some ()) 0 9 3 (.resp 400 (some groupErrBody) :: .resp s b :: rest) =
        { didRefreshToken := false, result := .noneResult, sleeps := [], remaining := rest }) ∧
    (∀ rest : List Outcome,
      get_item_details (some ()) 0 9 3 (.resp 400 (some groupErrBody) :: .timeout :: rest) =
        { didRefreshToken := false, result := .noneResult, sleeps := [], remaining := rest }) := by
  refine ⟨fun id p rest => rfl, fun rest => rfl, ?_, fun rest => rfl⟩
  intro b rest
  have h200 : (s == 200) = false := by simp [hs]
  have hg : get_item_group_details 8 (.resp s b :: rest) = (.noData, [], rest) :=
    group_non200 h200 7 b rest
  have hloop : get_item_details_from 9 3 0 (.resp 400 (some groupErrBody) :: .resp s b :: rest) =
      (.noneResult, [], rest) := by
    rw [item_group_redirect 8 (.resp s b :: rest), hg]
  simp [get_item_details, hloop, should_refresh_token]

/-- Witness for C9 with a 503 search failure and concrete group traces. -/
theorem C9_item_group_witness :
    get_item_details (some ()) 0 9 3
        [.resp 400 (some groupErrBody), .resp 200 (some (searchFoundBody (.str "555"))), .resp 200 (some (.num 42))] =
      { didRefreshToken := false, result := .payload (.num 42), sleeps := [], remaining := [] } ∧
    get_item_details (some ()) 0 9 3 [.resp 400 (some groupErrBody), .resp 200 (some searchEmptyBody)] =
      { didRefreshToken := false, result := .noneResult, sleeps := [], remaining := [] } ∧
    get_item_details (some ()) 0 9 3 [.resp 400 (some groupErrBody), .resp 503 none] =
      { didRefreshToken := false, result := .noneResult, sleeps := [], remaining := [] } ∧
    get_item_details (some ()) 0 9 3 [.resp 400 (some groupErrBody), .timeout] =
      { didRefreshToken := false, result := .noneResult, sleeps := [], remaining := [] } := by
  have h := C9_item_group 503 (by norm_num)
  exact ⟨h.1 (.str "555") (.num 42) [], h.2.1 [], h.2.2.1 none [], h.2.2.2 []⟩

/-- C10: when every attempt yields a status that matches no classification
branch (not 200 and below 400, e.g. 204 or a 3xx), the loop falls through
without sleeping or raising and the call returns Python `None`. -/
theorem C10_unmatched_status (s : ℕ) (h1 : s ≠ 200) (h2 : s < 400) :
    ∀ (b1 b2 b3 : Option Json) (rest : List Outcome),
      get_item_details (some ()) 0 9 3 (.resp s b1 :: .resp s b2 :: .resp s b3 :: rest) =
        { didRefreshToken := false, result := .noneResult, sleeps := [], remaining := rest } := by
  intro b1 b2 b3 rest
  have hloop : get_item_details_from 9 3 0 (.resp s b1 :: .resp s b2 :: .resp s b3 :: rest) =
      (.noneResult, [], rest) := by
    have e1' : get_item_details_from 9 3 0 (.resp s b1 :: .resp s b2 :: .resp s b3 :: rest) =
        get_item_details_from 8 3 1 (.resp s b2 :: .resp s b3 :: rest) :=
      run_other_cons h1 h2 8 3 0 b1 (.resp s b2 :: .resp s b3 :: rest) (by omega)
    have e2' : get_item_details_from 8 3 1 (.resp s b2 :: .resp s b3 :: rest) =
        get_item_details_from 7 3 2 (.resp s b3 :: rest) :=
      run_other_cons h1 h2 7 3 1 b2 (.resp s b3 :: rest) (by omega)
    have e3' : get_item_details_from 7 3 2 (.resp s b3 :: rest) =
        get_item_details_from 6 3 3 rest :=
      run_other_cons h1 h2 6 3 2 b3 rest (by omega)
    have hterm' : get_item_details_from 6 3 3 rest = (.noneResult, [], rest) := by
      rw [get_item_details_from]
      rw [if_neg (by omega)]
    rw [e1', e2', e3', hterm']
  simp [get_item_details, hloop, should_refresh_token]

/-- Witness for C10 at status 204. -/
theorem C10_unmatched_status_witness :
    get_item_details (some ()) 0 9 3 [.resp 204 none, .resp 204 none, .resp 204 none] =
      { didRefreshToken := false, result := .noneResult, sleeps := [], remaining := [] } :=
  C10_unmatched_status 204 (by norm_num) (by norm_num) none none none []

/-- C6 (amended): `ensure_valid_token` fails when no access token is stored;
succeeds immediately with zero refresh network calls when the probe says the
token is valid; fails when the token is invalid and no refresh token is
stored; on refresh failure it fails; on refresh success it persists the new
tokens and returns the outcome of the save step — success provided
persisting succeeds (the claim's unconditional success is refuted by the
save-failure counterexample). -/
theorem C6_ensure_valid :
    (∀ env : AuthEnv, truthyOpt (get_current_token env) = false →
        ensure_valid_token env = { ok := false, refreshNetworkCalls := 0, store := env.store }) ∧
    (∀ env : AuthEnv, truthyOpt (get_current_token env) = true →
        test_token_validity env.probe = true →
        ensure_valid_token env = { ok := true, refreshNetworkCalls := 0, store := env.store }) ∧
    (∀ env : AuthEnv, truthyOpt (get_current_token env) = true →
        test_token_validity env.probe = false →
        truthyOpt (get_refresh_token env) = false →
        ensure_valid_token env = { ok := false, refreshNetworkCalls := 0, store := env.store }) ∧
    (∀ env : AuthEnv, truthyOpt (get_current_token env) = true →
        test_token_validity env.probe = false →
        truthyOpt (get_refresh_token env) = true →
        (refresh_access_token env).1 = none →
        (ensure_valid_token env).ok = false) ∧
    (∀ (env : AuthEnv) (data : Json), truthyOpt (get_current_token env) = true →
        test_token_validity env.probe = false →
        truthyOpt (get_refresh_token env) = true →
        (refresh_access_token env).1 = some data →
        ensure_valid_token env =
          { ok := (save_tokens env.persistOk env.suffix env.store data).2,
            refreshNetworkCalls := (refresh_access_token env).2,
            store := (save_tokens env.persistOk env.suffix env.store data).1 }) := by
  refine ⟨?_, ?_, ?_, ?_, ?_⟩
  · intro env h
    unfold ensure_valid_token
    rw [if_pos (by simp [h])]
  · intro env h1 h2
    unfold ensure_valid_token
    rw [if_neg (by simp [h1]), if_pos h2]
  · intro env h1 h2 h3
    unfold ensure_valid_token
    rw [if_neg (by simp [h1]), if_neg (by simp [h2]), if_pos (by simp [h3])]
  · intro env h1 h2 h3 h4
    unfold ensure_valid_token
    rw [if_neg (by simp [h1]), if_neg (by simp [h2]), if_neg (by simp [h3])]
    rcases hra : refresh_access_token env with ⟨td, n⟩
    rw [hra] at h4
    simp only at h4
    subst h4
    simp
  · intro env data h1 h2 h3 h4
    unfold ensure_valid_token
    rw [if_neg (by simp [h1]), if_neg (by simp [h2]), if_neg (by simp [h3])]
    rcases hra : refresh_access_token env with ⟨td, n⟩
    rw [hra] at h4
    simp only at h4
    subst h4
    rcases hsv : save_tokens env.persistOk env.suffix env.store data with ⟨st, ok⟩
    simp [hsv]

/-- Witness for C6 over five concrete environments. -/
theorem C6_ensure_valid_witness :
    ensure_valid_token authEnvNoToken = { ok := false, refreshNetworkCalls := 0, store := [] } ∧
    ensure_valid_token authEnvValid = { ok := true, refreshNetworkCalls := 0, store := c6Store } ∧
    ensure_valid_token authEnvNoRefresh =
      { ok := false, refreshNetworkCalls := 0, store := [("EBAY_USER_TOKEN", "tok")] } ∧
    (ensure_valid_token authEnvRefreshFail).ok = false ∧
    ensure_valid_token c6Env = { ok := false, refreshNetworkCalls := 1, store := c6Store } := by
  have h := C6_ensure_valid
  refine ⟨h.1 authEnvNoToken (by rfl), h.2.1 authEnvValid (by rfl) (by rfl),
    h.2.2.1 authEnvNoRefresh (by rfl) (by rfl) (by rfl),
    h.2.2.2.1 authEnvRefreshFail (by rfl) (by rfl) (by rfl) (by rfl), ?_⟩
  have h5 := h.2.2.2.2 c6Env (.obj [("access_token", .str "newA"), ("refresh_token", .str "newR")])
    (by rfl) (by rfl) (by rfl) (by rfl)
  rw [h5]
  rfl

/-- Counterexample to C6 as stated: in `c6Env` the refresh endpoint succeeds
but persisting fails, and `ensure_valid_token` returns failure. -/
theorem C6_counterexample :
    (refresh_access_token c6Env).1.isSome = true ∧ (ensure_valid_token c6Env).ok = false :=
  ⟨rfl, rfl⟩

/-- C7 (amended): after a successful refresh, `save_tokens` overwrites each
stored token whose key the response body carries — both when both keys are
present; a response without `refresh_token` leaves the stored refresh token
untouched (refuting the claim's "always overwrites both"). -/
theorem C7_save_tokens :
    (∀ (suffix : String) (store : List (String × String)) (f : List (String × Json)) (a r : Json),
      lookupKey f "access_token" = some a → lookupKey f "refresh_token" = some r →
      (save_tokens true suffix store (.obj f)).2 = true ∧
      getEnv (save_tokens true suffix store (.obj f)).1 (envKey "EBAY_USER_TOKEN" suffix)
        = some (pyStr a) ∧
      getEnv (save_tokens true suffix store (.obj f)).1 (envKey "EBAY_REFRESH_TOKEN" suffix)
        = some (pyStr r)) ∧
    (∀ (suffix : String) (store : List (String × String)) (f : List (String × Json)),
      lookupKey f "refresh_token" = none →
      getEnv (save_tokens true suffix store (.obj f)).1 (envKey "EBAY_REFRESH_TOKEN" suffix)
        = getEnv store (envKey "EBAY_REFRESH_TOKEN" suffix)) := by
  constructor
  · intro suffix store f a r ha hr
    simp only [save_tokens, Bool.not_true, Bool.false_eq_true, if_false, ha, hr]
    refine ⟨trivial, ?_, getEnv_setKey_self _ _ _⟩
    rw [getEnv_setKey_ne (envKey_user_ne_refresh suffix) _ _]
    exact getEnv_setKey_self _ _ _
  · intro suffix store f hr
    simp only [save_tokens, Bool.not_true, Bool.false_eq_true, if_false, hr]
    cases ha : lookupKey f "access_token" with
    | none => rfl
    | some a =>
        exact getEnv_setKey_ne (envKey_user_ne_refresh2 suffix) _ _

/-- Witness for C7: a rotating response overwrites both tokens; `c7Data`
(no refresh key) leaves the stored refresh token unchanged. -/
theorem C7_save_tokens_witness :
    (save_tokens true "" c7Store (.obj [("access_token", .str "A2"), ("refresh_token", .str "R2")])).2
      = true ∧
    getEnv (save_tokens true "" c7Store
        (.obj [("access_token", .str "A2"), ("refresh_token", .str "R2")])).1 "EBAY_USER_TOKEN"
      = some "A2" ∧
    getEnv (save_tokens true "" c7Store
        (.obj [("access_token", .str "A2"), ("refresh_token", .str "R2")])).1 "EBAY_REFRESH_TOKEN"
      = some "R2" ∧
    getEnv (save_tokens true "" c7Store c7Data).1 "EBAY_REFRESH_TOKEN"
      = getEnv c7Store "EBAY_REFRESH_TOKEN" := by
  have h := C7_save_tokens
  have h1 := h.1 "" c7Store [("access_token", .str "A2"), ("refresh_token", .str "R2")]
    (.str "A2") (.str "R2") rfl rfl
  exact ⟨h1.1, h1.2.1, h1.2.2, h.2 "" c7Store [("access_token", .str "NEW_A")] rfl⟩

/-- Counterexample to C7 as stated: a successful refresh body carrying only
`access_token` leaves the stored refresh token at its old value. -/
theorem C7_counterexample :
    (save_tokens true "" c7Store c7Data).2 = true ∧
    getEnv (save_tokens true "" c7Store c7Data).1 "EBAY_USER_TOKEN" = some "NEW_A" ∧
    getEnv (save_tokens true "" c7Store c7Data).1 "EBAY_REFRESH_TOKEN" = some "OLD_R" ∧
    ("OLD_R" : String) ≠ "NEW_A" := by
  refine ⟨rfl, rfl, rfl, by decide⟩

/-- C8 (code bug): `_should_refresh_token` compares `timedelta.seconds` —
the elapsed time modulo one day — against the 5400-second threshold, so at
an age of 90000 seconds (25 h) the token is NOT refreshed even though the
age exceeds the threshold, while at 6000 seconds it is. -/
theorem C8_token_age_bug :
    should_refresh_token (some ()) 90000 = false ∧
    90000 > token_refresh_threshold ∧
    (get_item_details (some ()) 90000 9 3 [.resp 200 (some (.num 1))]).didRefreshToken = false ∧
    should_refresh_token (some ()) 6000 = true := by
  refine ⟨rfl, by norm_num [token_refresh_threshold], rfl, rfl⟩

end EbayHelpers
